import Mathlib

/-!
Verification of the AcuTrace bank-statement analysis backend.

This file gives a shallow embedding, in Lean 4, of the parts of the Python
source relevant to the frozen claims: the transaction categorizer
(services/transaction_categorizer.py), the entity normalizer
(services/entity_normalizer.py), the fund-flow chain builder
(services/fund_flow_chain_builder.py), the PDF validation/recovery pass
(services/pdf_processor.py) and the upload validation of the analyze
endpoint (main.py).

Embedding conventions:
* Python `str` is modelled as Lean `String` / `List Char`, restricted to the
  ASCII behaviour of `str.upper`, `str.lower`, `str.strip`, `str.split`
  and of the `re` module's character classes.
* Python `float` is modelled as `ℚ` (exact arithmetic); `round(x, n)` is
  modelled with half-even rounding over `ℚ`.
* Python regexes are modelled in two ways, both faithful for the pattern
  classes that occur in the source: patterns of the categorizer, which are
  literals separated by `.*`, are modelled by ordered-substring search;
  the richer patterns of the entity normalizer are modelled by a
  backtracking regex engine over an abstract syntax tree transcribed
  pattern by pattern from the source, with ordered alternation, greedy and
  lazy quantifiers and leftmost search, as in CPython's `re`.
* Mutable objects (the entity table, the chain builder state) are modelled
  by explicit state passing over association lists that preserve insertion
  order, as Python dicts do.
-/

/-! ## Python string primitives -/

/-- The 26 ASCII lower/upper pairs, used to model `str.upper`/`str.lower`. -/
def asciiCasePairs : List (Char × Char) :=
  [('a', 'A'), ('b', 'B'), ('c', 'C'), ('d', 'D'), ('e', 'E'), ('f', 'F'),
   ('g', 'G'), ('h', 'H'), ('i', 'I'), ('j', 'J'), ('k', 'K'), ('l', 'L'),
   ('m', 'M'), ('n', 'N'), ('o', 'O'), ('p', 'P'), ('q', 'Q'), ('r', 'R'),
   ('s', 'S'), ('t', 'T'), ('u', 'U'), ('v', 'V'), ('w', 'W'), ('x', 'X'),
   ('y', 'Y'), ('z', 'Z')]

/-- Model of `str.upper` on one character (ASCII fragment). -/
def pyUpperChar (c : Char) : Char :=
  match asciiCasePairs.find? (fun p => p.1 = c) with
  | some p => p.2
  | none => c

/-- Model of `str.lower` on one character (ASCII fragment). -/
def pyLowerChar (c : Char) : Char :=
  match asciiCasePairs.find? (fun p => p.2 = c) with
  | some p => p.1
  | none => c

/-- Python's `str.isspace` / `\s` class (ASCII fragment). -/
def pyIsSpace (c : Char) : Bool :=
  c = ' ' || c = '\t' || c = '\n' || c = '\r' || c = '\x0b' || c = '\x0c'

/-- Python's `\w` class (ASCII fragment): letters, digits, underscore. -/
def pyIsWord (c : Char) : Bool :=
  c.isAlphanum || c = '_'

/-- Model of `str.upper` (ASCII fragment). -/
def pyUpperL (l : List Char) : List Char := l.map pyUpperChar

/-- Model of `str.lower` (ASCII fragment). -/
def pyLowerL (l : List Char) : List Char := l.map pyLowerChar

/-- Model of `str.strip()`: drop leading and trailing whitespace. -/
def pyStripL (l : List Char) : List Char :=
  ((l.dropWhile pyIsSpace).reverse.dropWhile pyIsSpace).reverse

/-- Model of `str.split()` with no argument: split on whitespace runs,
never producing empty words. -/
def pySplitL : List Char → List (List Char)
  | [] => []
  | c :: cs =>
    if pyIsSpace c then pySplitL cs
    else
      match cs with
      | [] => [[c]]
      | d :: _ =>
        if pyIsSpace d then [c] :: pySplitL cs
        else
          match pySplitL cs with
          | [] => [[c]]
          | w :: ws => (c :: w) :: ws

/-- Model of `' '.join(words)`. -/
def joinSp : List (List Char) → List Char
  | [] => []
  | [w] => w
  | w :: ws => w ++ ' ' :: joinSp ws

/-- Model of the common Python idiom `' '.join(s.split())`: collapse all
whitespace runs to single spaces and trim the ends. -/
def collapseL (l : List Char) : List Char := joinSp (pySplitL l)

/-- `True` when all characters are ASCII digits and the string is nonempty:
model of `str.isdigit` (ASCII fragment). -/
def pyIsDigitStr (l : List Char) : Bool :=
  !l.isEmpty && l.all Char.isDigit

/-- Model of `str.lower` at `String` type. -/
def pyLowerS (s : String) : String := ⟨pyLowerL s.data⟩

/-- Model of `str.upper` at `String` type. -/
def pyUpperS (s : String) : String := ⟨pyUpperL s.data⟩

/-! ## Half-even rounding, modelling Python's `round` over our `ℚ` reading
of `float`. -/

/-- Python's `min` on two numbers (kernel-reducible form). -/
def pyMinQ (a b : ℚ) : ℚ := if b < a then b else a

/-- Python's banker's rounding to an integer. -/
def pyRoundInt (q : ℚ) : ℤ :=
  let f : ℤ := ⌊q⌋
  let r : ℚ := q - f
  if r < 1/2 then f
  else if 1/2 < r then f + 1
  else if f % 2 = 0 then f else f + 1

/-- Model of `round(q, 2)`. -/
def pyRound2 (q : ℚ) : ℚ := (pyRoundInt (q * 100) : ℚ) / 100

/-- Model of `round(q, 3)`. -/
def pyRound3 (q : ℚ) : ℚ := (pyRoundInt (q * 1000) : ℚ) / 1000

/-! ## Ordered-substring regex search

All patterns of `transaction_categorizer.py` are lowercase literals joined
by `.*`.  For such patterns `re.search(p, s)` succeeds iff the literal
segments of `p` occur in `s` in order; taking the leftmost occurrence of
each segment in turn decides this. -/

/-- Remainder of `l` after the first (leftmost) occurrence of `needle`;
`none` when `needle` does not occur. -/
def firstOccTail (needle : List Char) : List Char → Option (List Char)
  | [] => if needle.isEmpty then some [] else none
  | c :: cs =>
    if needle.isPrefixOf (c :: cs) then some ((c :: cs).drop needle.length)
    else firstOccTail needle cs

/-- The segments occur in order as substrings. -/
def segsMatch : List (List Char) → List Char → Bool
  | [], _ => true
  | seg :: rest, l =>
    match firstOccTail seg l with
    | some l₂ => segsMatch rest l₂
    | none => false

/-- Split a pattern at each literal `.*` occurrence (the behaviour of
`pat.split('.*')`-style segmentation used to read the categorizer's
patterns; none of them contain a bare `.` outside `.*`). -/
def splitDotStar : List Char → List (List Char)
  | [] => [[]]
  | '.' :: '*' :: rest => [] :: splitDotStar rest
  | c :: rest =>
    match splitDotStar rest with
    | [] => [[c]]
    | w :: ws => (c :: w) :: ws

/-- Model of `re.search(pat, desc)` (as a Boolean) for the categorizer's
patterns: literal segments separated by `.*`. -/
def reSearchSimple (pat : String) (desc : List Char) : Bool :=
  segsMatch (splitDotStar pat.data) desc

/-! ## Transaction categorizer (services/transaction_categorizer.py) -/

/-- `TransactionCategorizer._build_category_patterns`, transcribed verbatim:
twelve ordered categories, each with its ordered pattern list. -/
def categoryPatterns : List (String × List String) :=
  [("Income",
    ["salary", "payroll", "wages", "income", "credit.*salary",
     "employer", "pay.*credit", "salary.*credit", "salary.*transfer"]),
   ("Reward/Cashback",
    ["reward", "cashback", "bonus", "cash.*back", "loyalty",
     "points.*credit", "reward.*points", "cashback.*credit"]),
   ("Refund",
    ["refund", "reversal", "chargeback", "return.*refund",
     "refund.*credit", "payment.*reversal", "refund.*received"]),
   ("Bill Payment",
    ["electricity", "water", "gas", "utility", "bill.*payment",
     "phone.*bill", "mobile.*bill", "internet.*bill", "cable.*bill",
     "electricity.*bill", "water.*bill", "gas.*bill"]),
   ("Subscription",
    ["subscription", "netflix", "spotify", "prime", "monthly.*fee",
     "annually", "recurring.*subscription", "auto.*debit.*subscription",
     "amazon.*prime", "youtube.*premium", "subscription.*fee"]),
   ("EMI",
    ["emi", "loan.*emi", "installment", "loan.*repayment",
     "equated.*monthly", "home.*loan.*emi", "car.*loan.*emi",
     "personal.*loan.*emi", "emi.*payment"]),
   ("UPI Transfer",
    ["upi", "paytm", "phonepe", "gpay", "google.*pay",
     "bank.*transfer.*upi", "instant.*payment", "upi.*transfer",
     "upi.*payment", "upi.*to", "vpa.*upi"]),
   ("Bank Transfer",
    ["neft", "rtgs", "imps", "bank.*transfer", "fund.*transfer",
     "online.*transfer", "electronic.*transfer", "eft", "wire.*transfer"]),
   ("Cash Flow",
    ["atm", "cash.*withdrawal", "cash.*atm", "withdrawal.*atm",
     "cash.*deposit", "cash.*transaction"]),
   ("Loan",
    ["loan.*disbursement", "personal.*loan", "credit.*limit",
     "loan.*credit", "advance.*loan", "loan.*sanction",
     "loan.*disbursed", "personal.*loan.*credit"]),
   ("Investment",
    ["investment", "mutual.*fund", "stocks", "shares",
     "fixed.*deposit", "fd", "rd", "recurring.*deposit",
     "mutual.*fund.*purchase", "sip.*investment", "demat.*account"]),
   ("Expense",
    ["expense", "purchase", "payment", "debit", "spending",
     "merchant.*payment", "pos.*transaction", "card.*payment"])]

/-- Risk keyword groups of `_build_risk_keywords`. -/
def highRiskKeywords : List String :=
  ["casino", "gambling", "betting", "crypto", "bitcoin", "forex",
   "trading.*platform"]

/-- Medium-risk keyword group. -/
def mediumRiskKeywords : List String :=
  ["online.*payment", "merchant.*unknown", "international",
   "foreign.*transaction"]

/-- Low-risk keyword group. -/
def lowRiskKeywords : List String :=
  ["salary", "utility", "government", "bank", "established.*merchant"]

/-- Inner pattern loop of `categorize_transaction`: scan the patterns of
one category in order and return the length of the first matching pattern
whose (literal) length exceeds the running maximum; the source `break`s out
of the category at that point, and otherwise keeps scanning. -/
def scanPats (desc : List Char) (maxL : ℕ) : List String → Option ℕ
  | [] => none
  | p :: ps =>
    if reSearchSimple p desc && decide (maxL < p.length) then some p.length
    else scanPats desc maxL ps

/-- Outer category loop of `categorize_transaction`: the accumulator is the
`(matched_category, max_match_length)` pair. -/
def catFold (desc : List Char) : List (String × List String) →
    Option String × ℕ → Option String × ℕ
  | [], acc => acc
  | (c, ps) :: rest, acc =>
    catFold desc rest
      (match scanPats desc acc.2 ps with
       | some L => (some c, L)
       | none => acc)

/-- `_calculate_merchant_risk` (the argument is the already-lowered
description; the source lowers it once more, which we mirror). -/
def calcMerchantRisk (d : List Char) : ℚ :=
  let d₂ := pyLowerL d
  if highRiskKeywords.any (fun k => reSearchSimple k d₂) then 9/10
  else if mediumRiskKeywords.any (fun k => reSearchSimple k d₂) then 6/10
  else if lowRiskKeywords.any (fun k => reSearchSimple k d₂) then 2/10
  else 1/2

/-- `_determine_behavioral_deviation`: the effective amount is
`float(credit) or float(debit)` (credit when nonzero, else debit). -/
def behavioralDeviation (credit debit : ℚ) (category : String) : String :=
  let amount := if credit ≠ 0 then credit else debit
  if 100000 < amount then "High Value"
  else if amount < 10 then "Micro Transaction"
  else if category = "Unknown" then "Uncategorized"
  else "Normal"

/-- Output record of `categorize_transaction`. -/
structure CatResult where
  category : String
  subcategory : String
  merchant_risk_score : ℚ
  narration_risk_confidence : ℚ
  behavioral_deviation : String
  deriving Repr, DecidableEq

/-- `categorize_transaction` over a record with the given description,
credit and debit. -/
def categorizeTransaction (description : String) (credit debit : ℚ) :
    CatResult :=
  let d := pyLowerL description.data
  let m := catFold d categoryPatterns (none, 0)
  let category :=
    match m.1 with
    | some c => c
    | none => if 0 < credit then "Income"
              else if 0 < debit then "Expense"
              else "Unknown"
  let nrc : ℚ :=
    match m.1 with
    | some _ => pyMinQ (95/100) (1/2 + (m.2 : ℚ)/100)
    | none => 3/10
  { category := category
    subcategory := ""
    merchant_risk_score := pyRound3 (calcMerchantRisk d)
    narration_risk_confidence := pyRound3 nrc
    behavioral_deviation := behavioralDeviation credit debit category }

/-- The selection rule stated by the specification (transcribed from the
spec's words, for comparison with the source's `catFold`): across all
categories and all their patterns, pick the category owning the longest
matching pattern, insertion order breaking ties.  Returns that category
together with the longest matching pattern length. -/
def specLongestMatch (desc : List Char) : Option (String × ℕ) :=
  categoryPatterns.foldl
    (fun acc e =>
      let lens := (e.2.filter (fun p => reSearchSimple p desc)).map
        String.length
      match lens.max? with
      | none => acc
      | some L =>
        match acc with
        | none => some (e.1, L)
        | some (c₀, L₀) => if L₀ < L then some (e.1, L) else some (c₀, L₀))
    none

/-! ## Entity normalizer: `_normalize_name`
(services/entity_normalizer.py) -/

/-- `EntityNormalizer.merchant_aliases`, transcribed verbatim. -/
def merchantAliases : List (String × String) :=
  [("AMZN", "AMAZON"), ("AZ", "AMAZON"), ("FLIP", "FLIPKART"),
   ("SWIGGY", "SWIGGY"), ("ZOMATO", "ZOMATO"), ("MYN", "MYNTRA"),
   ("NYK", "NYKAA"), ("GPAY", "GPAY"), ("PHONEPE", "PHONEPE"),
   ("PAYTM", "PAYTM"), ("AMAZN", "AMAZON"), ("UBER", "UBER"),
   ("OLA", "OLA"), ("IRCTC", "IRCTC"), ("MM", "MAKE MY TRIP")]

/-- The merchant-alias table lookup (`if name in self.merchant_aliases`). -/
def aliasApply (l : List Char) : List Char :=
  match merchantAliases.find? (fun p => p.1.data = l) with
  | some p => p.2.data
  | none => l

/-- `re.sub(r'[0-9#*]', ' ', name)` on one character. -/
def cleanChar1 (c : Char) : Char :=
  if c.isDigit || c = '#' || c = '*' then ' ' else c

/-- `re.sub(r'[^\w\s]', ' ', name)` on one character. -/
def cleanChar2 (c : Char) : Char :=
  if pyIsWord c || pyIsSpace c then c else ' '

/-- True when the next position starts with a non-word character or is the
end of the string: the `\b` condition after a word-character match. -/
def boundaryOk : List Char → Bool
  | [] => true
  | d :: _ => !pyIsWord d

/-- `re.sub(r'\b' + w + r'\b', repl, ·)`: scan left to right, replacing
each non-overlapping word-boundary-delimited occurrence of `w`.  The scan
carries whether the previous character was a word character (for the
leading `\b`); the fuel argument (instantiated with the string length,
which bounds the number of steps) keeps the recursion structural.  The
callers pass upper-cased text and upper-case `w`, so `re.IGNORECASE`
coincides with exact matching. -/
def subWordAux (w repl : List Char) : Nat → Bool → List Char → List Char
  | 0, _, l => l
  | fuel+1, prevW, l =>
    match l with
    | [] => []
    | c :: cs =>
      if !prevW && !w.isEmpty && w.isPrefixOf (c :: cs) &&
          boundaryOk ((c :: cs).drop w.length) then
        repl ++ subWordAux w repl fuel true ((c :: cs).drop w.length)
      else c :: subWordAux w repl fuel (pyIsWord c) cs

/-- Word-boundary substitution, starting in non-word state. -/
def subWord (w repl l : List Char) : List Char :=
  subWordAux w repl l.length false l

/-- `EntityNormalizer.suffixes_to_remove`, transcribed verbatim. -/
def suffixesToRemove : List String :=
  ["TRADERS", "TRDG", "TRD", "AGENCIES", "AGY", "ENTERPRISES", "ENTP",
   "SERVICES", "SRV", "SOLUTIONS", "SOLN", "PVT", "LTD", "LIMITED",
   "CORP", "CORPORATION", "INC", "COMPANY", "CO", "HOLDINGS", "HDG",
   "INDUSTRIES", "CONSTRUCTIONS", "DEVELOPERS", "REALTY", "ESTATES"]

/-- The suffix-removal loop of `_normalize_name`: for each suffix in order,
remove its word-boundary occurrences and strip. -/
def suffixStep (l : List Char) : List Char :=
  suffixesToRemove.foldl (fun acc w => pyStripL (subWord w.data [] acc)) l

/-- The leading tokens removed by `_normalize_name`'s prefix regex, in the
alternation order of
`^(?:TO|FROM|FOR|AT|ON|BY|REF|REFNO|NO|NEW|AC|ACC|ACCOUNT|TRANSFER|TRF)\s*`. -/
def normLeadToks : List String :=
  ["TO", "FROM", "FOR", "AT", "ON", "BY", "REF", "REFNO", "NO", "NEW",
   "AC", "ACC", "ACCOUNT", "TRANSFER", "TRF"]

/-- One application of the anchored prefix regex: Python alternation takes
the first alternative that matches at position 0, then `\s*` consumes the
following whitespace.  (There is no `\b` after the alternation in the
source pattern, so word prefixes are also stripped.) -/
def stripLeadTok (ps : List String) (l : List Char) : List Char :=
  match ps.find? (fun p => p.data.isPrefixOf l) with
  | some p => (l.drop p.length).dropWhile pyIsSpace
  | none => l

/-- `EntityNormalizer._normalize_name`: upper-case and strip, apply the
merchant-alias table, blank out digits/`#`/`*` and non-word punctuation,
remove business suffixes as whole words (stripping after each), remove one
leading prefix token, and collapse whitespace. -/
def normalizeNameL (name : List Char) : List Char :=
  if name.isEmpty then [] else
  let n₁ := pyStripL (pyUpperL name)
  let n₂ := aliasApply n₁
  let n₃ := n₂.map (fun c => cleanChar2 (cleanChar1 c))
  let n₄ := suffixStep n₃
  let n₅ := stripLeadTok normLeadToks n₄
  collapseL n₅

/-- `_normalize_name` at `String` type. -/
def normalizeName (s : String) : String := ⟨normalizeNameL s.data⟩

/-! ## A backtracking regex engine

`re.search` semantics for the entity normalizer's patterns: leftmost
starting position, ordered alternation, greedy (`*`, `+`, `?`, `{2,}`) and
lazy (`+?`) quantifiers realised by backtracking, one capture group, and
`$` as end anchor.  The matcher is written in continuation-passing style;
`fuel` bounds the nesting of matcher calls (structural recursion so that
the kernel can evaluate it) and is instantiated generously relative to the
input length. -/

/-- Regex abstract syntax: the fragment used by the source's patterns. -/
inductive RE where
  | eps
  | cls (p : Char → Bool)
  | cat (a b : RE)
  | alt (a b : RE)
  | group (a : RE)
  | starG (a : RE)
  | starL (a : RE)
  | eos

/-- The CPS backtracking matcher.  `cap` is the current capture of group 1;
the continuation receives the remaining input and the capture.  Ordered
choice via `Option.orElse` realises Python's preference order. -/
def reMat : Nat → RE → List Char → Option (List Char) →
    (List Char → Option (List Char) →
      Option (List Char × Option (List Char))) →
    Option (List Char × Option (List Char))
  | 0, _, _, _, _ => none
  | fuel+1, r, s, cap, k =>
    match r with
    | .eps => k s cap
    | .cls p =>
      match s with
      | [] => none
      | c :: cs => if p c then k cs cap else none
    | .cat a b => reMat fuel a s cap (fun s₂ cap₂ => reMat fuel b s₂ cap₂ k)
    | .alt a b =>
      match reMat fuel a s cap k with
      | some res => some res
      | none => reMat fuel b s cap k
    | .group a =>
      reMat fuel a s cap
        (fun s₂ _ => k s₂ (some (s.take (s.length - s₂.length))))
    | .eos =>
      match s with
      | [] => k s cap
      | _ :: _ => none
    | .starG a =>
      match reMat fuel a s cap
          (fun s₂ cap₂ => reMat fuel (.starG a) s₂ cap₂ k) with
      | some res => some res
      | none => k s cap
    | .starL a =>
      match k s cap with
      | some res => some res
      | none =>
        reMat fuel a s cap
          (fun s₂ cap₂ => reMat fuel (.starL a) s₂ cap₂ k)

/-- Try to match `r` at each successive start position, leftmost first;
on success return the matched text and the group-1 capture. -/
def reSearchCore (r : RE) (fuel : Nat) :
    List Char → Option (List Char × Option (List Char))
  | [] =>
    match reMat fuel r [] none (fun rem cap => some (rem, cap)) with
    | some (_, cap) => some ([], cap)
    | none => none
  | c :: cs =>
    match reMat fuel r (c :: cs) none (fun rem cap => some (rem, cap)) with
    | some (rem, cap) =>
      some ((c :: cs).take ((c :: cs).length - rem.length), cap)
    | none => reSearchCore r fuel cs

/-- `re.search(r, l)`: the fuel is ample for every pattern in this file on
any input (each matcher call either descends into a strictly smaller
pattern or consumes input under a star). -/
def reSearch (r : RE) (l : List Char) :
    Option (List Char × Option (List Char)) :=
  reSearchCore r (8 * l.length + 800) l

/-- Case-insensitive literal character (all source patterns are compiled
with `re.IGNORECASE`). -/
def rChar (c : Char) : RE :=
  RE.cls (fun d => pyLowerChar d = pyLowerChar c)

/-- Case-insensitive literal string. -/
def rLit (s : String) : RE :=
  (s.data.map rChar).foldr RE.cat RE.eps

/-- Concatenation of a pattern list. -/
def rCats (l : List RE) : RE := l.foldr RE.cat RE.eps

/-- Ordered alternation of a pattern list. -/
def rAlts : List RE → RE
  | [] => RE.cls (fun _ => false)
  | [r] => r
  | r :: rest => RE.alt r (rAlts rest)

/-- Greedy `?`. -/
def rOpt (a : RE) : RE := RE.alt a RE.eps

/-- Greedy `+`. -/
def rPlusG (a : RE) : RE := RE.cat a (RE.starG a)

/-- Lazy `+?`. -/
def rPlusL (a : RE) : RE := RE.cat a (RE.starL a)

/-- Greedy `{2,}`. -/
def rRepG2 (a : RE) : RE := RE.cat a (RE.cat a (RE.starG a))

/-- `[A-Z]` under `re.IGNORECASE`: any ASCII letter. -/
def clsUpperAZ : RE := RE.cls (fun c => c.isAlpha)

/-- `[A-Za-z\s]`. -/
def clsAlphaSp : RE := RE.cls (fun c => c.isAlpha || pyIsSpace c)

/-- `[a-zA-Z0-9]` (and `[A-Z0-9]` under `re.IGNORECASE`). -/
def clsAlnum : RE := RE.cls (fun c => c.isAlphanum)

/-- `\d`. -/
def clsDigit : RE := RE.cls (fun c => c.isDigit)

/-- `.` (any character but newline). -/
def clsDot : RE := RE.cls (fun c => c != '\n')

/-- `\s`. -/
def clsWS : RE := RE.cls (fun c => pyIsSpace c)

/-- The class of dash and slash (written dash-slash in brackets in the
source patterns). -/
def clsDashSlash : RE := RE.cls (fun c => c = '-' || c = '/')

/-- `[/\s]`. -/
def clsSlashWS : RE := RE.cls (fun c => c = '/' || pyIsSpace c)

/-- `[/\s-]`. -/
def clsSlashWSDash : RE := RE.cls (fun c => c = '/' || pyIsSpace c || c = '-')

/-- `[:\s-]`. -/
def clsColonWSDash : RE := RE.cls (fun c => c = ':' || pyIsSpace c || c = '-')

/-- `[:\s]`. -/
def clsColonWS : RE := RE.cls (fun c => c = ':' || pyIsSpace c)

/-- `[A-Z0-9/\-]` under `re.IGNORECASE`. -/
def clsAlnumSlashDash : RE :=
  RE.cls (fun c => c.isAlphanum || c = '/' || c = '-')

/-- `([A-Z][A-Za-z\s]+?)`: the lazy party capture group. -/
def rPartyLazy : RE := RE.group (rCats [clsUpperAZ, rPlusL clsAlphaSp])

/-- `([A-Z][A-Za-z\s]{2,})`: the greedy party capture group. -/
def rParty2 : RE := RE.group (rCats [clsUpperAZ, rRepG2 clsAlphaSp])

/-- `(?:\s*$|,)`: the common tail. -/
def rTailEndComma : RE :=
  rAlts [rCats [RE.starG clsWS, RE.eos], rLit ","]

/-! ## Entity normalizer: pattern tables and `extract_entity`
(services/entity_normalizer.py)

Each `RE` value below transcribes one source regex, written above it in a
comment. -/

/-- `self.upi_patterns` (13 patterns). -/
def enUpiPatterns : List RE :=
  [ -- r'UPI/(?:CR|DR)/\d+/(.+?)/(?:OK|FAIL|PA|BI|AX|PASS)'
   rCats [rLit "UPI/", rAlts [rLit "CR", rLit "DR"], rLit "/",
     rPlusG clsDigit, rLit "/", RE.group (rPlusL clsDot), rLit "/",
     rAlts [rLit "OK", rLit "FAIL", rLit "PA", rLit "BI", rLit "AX",
       rLit "PASS"]],
   -- r'UPI/(?:CR|DR)/\d+/(.+?)$'
   rCats [rLit "UPI/", rAlts [rLit "CR", rLit "DR"], rLit "/",
     rPlusG clsDigit, rLit "/", RE.group (rPlusL clsDot), RE.eos],
   -- r'UPI/\d+/(.+?)/(?:OK|FAIL|PA|BI)$'
   rCats [rLit "UPI/", rPlusG clsDigit, rLit "/",
     RE.group (rPlusL clsDot), rLit "/",
     rAlts [rLit "OK", rLit "FAIL", rLit "PA", rLit "BI"], RE.eos],
   -- r'UPI/(.+?)/(?:OK|FAIL|PA|BI)$'
   rCats [rLit "UPI/", RE.group (rPlusL clsDot), rLit "/",
     rAlts [rLit "OK", rLit "FAIL", rLit "PA", rLit "BI"], RE.eos],
   -- r'UPI-(?:CR|DR)?-?\d*-?(.+?)(?:[-/]OK|[-/]FAIL|[-/]PA|[-/]BI|$)'
   rCats [rLit "UPI-", rOpt (rAlts [rLit "CR", rLit "DR"]), rOpt (rLit "-"),
     RE.starG clsDigit, rOpt (rLit "-"), RE.group (rPlusL clsDot),
     rAlts [rCats [clsDashSlash, rLit "OK"], rCats [clsDashSlash, rLit "FAIL"],
       rCats [clsDashSlash, rLit "PA"], rCats [clsDashSlash, rLit "BI"],
       RE.eos]],
   -- r'UPI[-/]*(?:CR|DR)?[-/]*\d*[-/]*(.+?)(?:[-/]OK|[-/]PA|[-/]BI|$)'
   rCats [rLit "UPI", RE.starG clsDashSlash,
     rOpt (rAlts [rLit "CR", rLit "DR"]), RE.starG clsDashSlash,
     RE.starG clsDigit, RE.starG clsDashSlash, RE.group (rPlusL clsDot),
     rAlts [rCats [clsDashSlash, rLit "OK"], rCats [clsDashSlash, rLit "PA"],
       rCats [clsDashSlash, rLit "BI"], RE.eos]],
   -- r'@([a-zA-Z0-9]+)'
   rCats [rLit "@", RE.group (rPlusG clsAlnum)],
   -- r'UPI[/\s]*@([a-zA-Z0-9]+)'
   rCats [rLit "UPI", RE.starG clsSlashWS, rLit "@",
     RE.group (rPlusG clsAlnum)],
   -- r'UPI[/\s]*(?:from|to|by)[/\s]*([A-Z][A-Za-z\s]{2,})(?:\s*$|/)'
   rCats [rLit "UPI", RE.starG clsSlashWS,
     rAlts [rLit "from", rLit "to", rLit "by"], RE.starG clsSlashWS,
     rParty2, rAlts [rCats [RE.starG clsWS, RE.eos], rLit "/"]],
   -- r'UPI/(?:D\d+)?[/\s]*([A-Z][A-Za-z\s]{2,})(?:\s*$|/)'
   rCats [rLit "UPI/", rOpt (rCats [rLit "D", rPlusG clsDigit]),
     RE.starG clsSlashWS, rParty2,
     rAlts [rCats [RE.starG clsWS, RE.eos], rLit "/"]],
   -- r'UPI[/\s]*(?:CR|DR)[/\s]*(?:D\d+)?[/\s]*([A-Z][A-Za-z\s]{2,})(?:\s*$)'
   rCats [rLit "UPI", RE.starG clsSlashWS, rAlts [rLit "CR", rLit "DR"],
     RE.starG clsSlashWS, rOpt (rCats [rLit "D", rPlusG clsDigit]),
     RE.starG clsSlashWS, rParty2, RE.starG clsWS, RE.eos],
   -- r'(?:UPI|PAYTM|GPAY|PHONEPE)[/\s]*(?:CR|DR)?[/\s]*(?:D\d+)?[/\s]*([A-Z][A-Za-z\s]+?)(?:/OKPA|/OKAX|/OKBI|/OK|/PAYPASS|$)'
   rCats [rAlts [rLit "UPI", rLit "PAYTM", rLit "GPAY", rLit "PHONEPE"],
     RE.starG clsSlashWS, rOpt (rAlts [rLit "CR", rLit "DR"]),
     RE.starG clsSlashWS, rOpt (rCats [rLit "D", rPlusG clsDigit]),
     RE.starG clsSlashWS, rPartyLazy,
     rAlts [rLit "/OKPA", rLit "/OKAX", rLit "/OKBI", rLit "/OK",
       rLit "/PAYPASS", RE.eos]],
   -- r'(?:UPI|upi)(?:[/\s-]*(?:CR|DR))?[/\s-]*\d*[/\s-]*([A-Z][A-Za-z\s]+?)(?:[/\s]*(?:OK|PA|BI)$|$)'
   rCats [rAlts [rLit "UPI", rLit "upi"],
     rOpt (rCats [RE.starG clsSlashWSDash, rAlts [rLit "CR", rLit "DR"]]),
     RE.starG clsSlashWSDash, RE.starG clsDigit, RE.starG clsSlashWSDash,
     rPartyLazy,
     rAlts [rCats [RE.starG clsSlashWS, rAlts [rLit "OK", rLit "PA",
       rLit "BI"], RE.eos], RE.eos]]]

/-- `self.rtgs_patterns` (5 patterns). -/
def enRtgsPatterns : List RE :=
  [ -- r'RTGS\s+CR[-]\s*[A-Z0-9]+[-]\s*([A-Z][A-Za-z\s]+?)(?:[-]\s*[A-Z0-9]|$)'
   rCats [rLit "RTGS", rPlusG clsWS, rLit "CR", rLit "-", RE.starG clsWS,
     rPlusG clsAlnum, rLit "-", RE.starG clsWS, rPartyLazy,
     rAlts [rCats [rLit "-", RE.starG clsWS, clsAlnum], RE.eos]],
   -- r'RTGS\s+(?:CR|DR)[-]\s*([A-Z][A-Za-z\s]+?)(?:[-]|$)'
   rCats [rLit "RTGS", rPlusG clsWS, rAlts [rLit "CR", rLit "DR"],
     rLit "-", RE.starG clsWS, rPartyLazy, rAlts [rLit "-", RE.eos]],
   -- r'RTGS\s+(?:from|to)?\s*([A-Z][A-Za-z\s]+?)(?:\s*$|,)'
   rCats [rLit "RTGS", rPlusG clsWS, rOpt (rAlts [rLit "from", rLit "to"]),
     RE.starG clsWS, rPartyLazy, rTailEndComma],
   -- r'RTGS[/\s]+(?:transfer|TRF)?[/\s]*([A-Z][A-Za-z\s]+?)(?:\s*$|,)'
   rCats [rLit "RTGS", rPlusG clsSlashWS,
     rOpt (rAlts [rLit "transfer", rLit "TRF"]), RE.starG clsSlashWS,
     rPartyLazy, rTailEndComma],
   -- r'RTGS\s+(?:CR|DR)?\s*[A-Z0-9/\-]*\s*([A-Z][A-Za-z\s]{2,})'
   rCats [rLit "RTGS", rPlusG clsWS, rOpt (rAlts [rLit "CR", rLit "DR"]),
     RE.starG clsWS, RE.starG clsAlnumSlashDash, RE.starG clsWS, rParty2]]

/-- `self.neft_patterns` (5 patterns). -/
def enNeftPatterns : List RE :=
  [ -- r'NEFT\s+CR[-]\s*[A-Z0-9]+[-]\s*([A-Z][A-Za-z\s]+?)(?:[-]|$)'
   rCats [rLit "NEFT", rPlusG clsWS, rLit "CR", rLit "-", RE.starG clsWS,
     rPlusG clsAlnum, rLit "-", RE.starG clsWS, rPartyLazy,
     rAlts [rLit "-", RE.eos]],
   -- r'NEFT\s+(?:CR|DR)[-]\s*[A-Z0-9]+[-]\s*([A-Z][A-Za-z\s]+?)(?:[-]|$)'
   rCats [rLit "NEFT", rPlusG clsWS, rAlts [rLit "CR", rLit "DR"],
     rLit "-", RE.starG clsWS, rPlusG clsAlnum, rLit "-", RE.starG clsWS,
     rPartyLazy, rAlts [rLit "-", RE.eos]],
   -- r'NEFT\s+(?:from|to)?\s*([A-Z][A-Za-z\s]+?)(?:\s*$|,)'
   rCats [rLit "NEFT", rPlusG clsWS, rOpt (rAlts [rLit "from", rLit "to"]),
     RE.starG clsWS, rPartyLazy, rTailEndComma],
   -- r'NEFT[/\s]+(?:transfer|TRF)?[/\s]*([A-Z][A-Za-z\s]+?)(?:\s*$|,)'
   rCats [rLit "NEFT", rPlusG clsSlashWS,
     rOpt (rAlts [rLit "transfer", rLit "TRF"]), RE.starG clsSlashWS,
     rPartyLazy, rTailEndComma],
   -- r'NEFT\s+(?:CR|DR)?\s*[A-Z0-9/\-]*\s*([A-Z][A-Za-z\s]{2,})'
   rCats [rLit "NEFT", rPlusG clsWS, rOpt (rAlts [rLit "CR", rLit "DR"]),
     RE.starG clsWS, RE.starG clsAlnumSlashDash, RE.starG clsWS, rParty2]]

/-- `self.imps_patterns` (5 patterns). -/
def enImpsPatterns : List RE :=
  [ -- r'IMPS\s+(?:CR|DR)[-]\s*[A-Z0-9]+[-]\s*([A-Z][A-Za-z\s]+?)(?:[-]|$)'
   rCats [rLit "IMPS", rPlusG clsWS, rAlts [rLit "CR", rLit "DR"],
     rLit "-", RE.starG clsWS, rPlusG clsAlnum, rLit "-", RE.starG clsWS,
     rPartyLazy, rAlts [rLit "-", RE.eos]],
   -- r'IMPS[/]*(?:from|to)?\s*([A-Z][A-Za-z\s]+?)(?:\s*$|,)'
   rCats [rLit "IMPS", RE.starG (rChar '/'),
     rOpt (rAlts [rLit "from", rLit "to"]), RE.starG clsWS, rPartyLazy,
     rTailEndComma],
   -- r'IMPS\s+(?:from|to)?\s*([A-Z][A-Za-z\s]+?)(?:\s*$)'
   rCats [rLit "IMPS", rPlusG clsWS, rOpt (rAlts [rLit "from", rLit "to"]),
     RE.starG clsWS, rPartyLazy, RE.starG clsWS, RE.eos],
   -- r'IMPS[/\s]+(?:transfer|TRF)?[/\s]*([A-Z][A-Za-z\s]+?)(?:\s*$|,)'
   rCats [rLit "IMPS", rPlusG clsSlashWS,
     rOpt (rAlts [rLit "transfer", rLit "TRF"]), RE.starG clsSlashWS,
     rPartyLazy, rTailEndComma],
   -- r'IMPS\s+(?:CR|DR)?\s*[A-Z0-9/\-]*\s*([A-Z][A-Za-z\s]{2,})'
   rCats [rLit "IMPS", rPlusG clsWS, rOpt (rAlts [rLit "CR", rLit "DR"]),
     RE.starG clsWS, RE.starG clsAlnumSlashDash, RE.starG clsWS, rParty2]]

/-- `self.transfer_patterns` (7 patterns). -/
def enTransferPatterns : List RE :=
  [ -- r'(?:transfer|TRANSFER)\s+(?:from|to|FROM|TO)\s+([A-Z][A-Za-z\s]+?)(?:\s*$|,)'
   rCats [rAlts [rLit "transfer", rLit "TRANSFER"], rPlusG clsWS,
     rAlts [rLit "from", rLit "to", rLit "FROM", rLit "TO"], rPlusG clsWS,
     rPartyLazy, rTailEndComma],
   -- r'PAID\s+TO\s+([A-Z][A-Za-z\s]+?)(?:\s*$|,)'
   rCats [rLit "PAID", rPlusG clsWS, rLit "TO", rPlusG clsWS, rPartyLazy,
     rTailEndComma],
   -- r'RECEIVED\s+FROM\s+([A-Z][A-Za-z\s]+?)(?:\s*$|,)'
   rCats [rLit "RECEIVED", rPlusG clsWS, rLit "FROM", rPlusG clsWS,
     rPartyLazy, rTailEndComma],
   -- r'BY\s+(?:TRANSFER|NEFT|RTGS|IMPS)[:\s-]*([A-Z][A-Za-z\s]+?)(?:\s*$|,)'
   rCats [rLit "BY", rPlusG clsWS,
     rAlts [rLit "TRANSFER", rLit "NEFT", rLit "RTGS", rLit "IMPS"],
     RE.starG clsColonWSDash, rPartyLazy, rTailEndComma],
   -- r'TRF\s+(?:TO|FROM)[:\s]*([A-Z][A-Za-z\s]+?)(?:\s*$|,)'
   rCats [rLit "TRF", rPlusG clsWS, rAlts [rLit "TO", rLit "FROM"],
     RE.starG clsColonWS, rPartyLazy, rTailEndComma],
   -- r'TRANSFER\s+(?:TO|FROM)?\s*([A-Z][A-Za-z\s]+?)(?:\s*$|,)'
   rCats [rLit "TRANSFER", rPlusG clsWS, rOpt (rAlts [rLit "TO", rLit "FROM"]),
     RE.starG clsWS, rPartyLazy, rTailEndComma],
   -- r'Payment\s+(?:to|from)?\s*([A-Z][A-Za-z\s]+?)(?:\s*$|,)'
   rCats [rLit "Payment", rPlusG clsWS, rOpt (rAlts [rLit "to", rLit "from"]),
     RE.starG clsWS, rPartyLazy, rTailEndComma]]

/-- `self.cheque_patterns` (3 patterns). -/
def enChequePatterns : List RE :=
  [ -- r'CHEQUE\s+(?:PAYMENT|DEPOSIT|CLEARING)[:\s-]*([A-Z][A-Za-z\s]{2,})'
   rCats [rLit "CHEQUE", rPlusG clsWS,
     rAlts [rLit "PAYMENT", rLit "DEPOSIT", rLit "CLEARING"],
     RE.starG clsColonWSDash, rParty2],
   -- r'CHQ[:\s-]*([A-Z][A-Za-z\s]{2,})'
   rCats [rLit "CHQ", RE.starG clsColonWSDash, rParty2],
   -- r'CHEQUE\s+NO[:\s]*\d+\s*(?:DRAWN\s+ON)?\s*([A-Z][A-Za-z\s]{2,})'
   rCats [rLit "CHEQUE", rPlusG clsWS, rLit "NO", RE.starG clsColonWS,
     rPlusG clsDigit, RE.starG clsWS,
     rOpt (rCats [rLit "DRAWN", rPlusG clsWS, rLit "ON"]), RE.starG clsWS,
     rParty2]]

/-- `self.cash_patterns` (4 patterns). -/
def enCashPatterns : List RE :=
  [ -- r'CASH\s+DEPOSIT\s+(?:AT|BY)?\s*([A-Z][A-Za-z\s]+?)(?:\s*$|,)'
   rCats [rLit "CASH", rPlusG clsWS, rLit "DEPOSIT", rPlusG clsWS,
     rOpt (rAlts [rLit "AT", rLit "BY"]), RE.starG clsWS, rPartyLazy,
     rTailEndComma],
   -- r'CASH\s+(?:DEPOSIT|WITHDRAWAL)[-]\s*([A-Z][A-Za-z\s]+?)(?:\s*$|,)'
   rCats [rLit "CASH", rPlusG clsWS,
     rAlts [rLit "DEPOSIT", rLit "WITHDRAWAL"], rLit "-", RE.starG clsWS,
     rPartyLazy, rTailEndComma],
   -- r'CASH\s+BY\s+([A-Z][A-Za-z\s]+?)(?:\s*$|,)'
   rCats [rLit "CASH", rPlusG clsWS, rLit "BY", rPlusG clsWS, rPartyLazy,
     rTailEndComma],
   -- r'CASH\s+(?:DEPOSIT|WITHDRAWAL)\s+(?:AT)?\s*([A-Z][A-Za-z\s]{2,})'
   rCats [rLit "CASH", rPlusG clsWS,
     rAlts [rLit "DEPOSIT", rLit "WITHDRAWAL"], rPlusG clsWS,
     rOpt (rLit "AT"), RE.starG clsWS, rParty2]]

/-- `self.bill_patterns` (5 patterns). -/
def enBillPatterns : List RE :=
  [ -- r'(?:BILL|EMI|LOAN)\s+(?:PAYMENT|REPAYMENT)[:\s]*([A-Z][A-Za-z\s]+?)(?:\s*$|,)'
   rCats [rAlts [rLit "BILL", rLit "EMI", rLit "LOAN"], rPlusG clsWS,
     rAlts [rLit "PAYMENT", rLit "REPAYMENT"], RE.starG clsColonWS,
     rPartyLazy, rTailEndComma],
   -- r'(?:BILL|EMI)\s+(?:FOR|TO)?\s*([A-Z][A-Za-z\s]+?)(?:\s*$|,)'
   rCats [rAlts [rLit "BILL", rLit "EMI"], rPlusG clsWS,
     rOpt (rAlts [rLit "FOR", rLit "TO"]), RE.starG clsWS, rPartyLazy,
     rTailEndComma],
   -- r'(?:CREDIT\s+CARD|DEBIT\s+CARD)\s+BILL[:\s]*([A-Z][A-Za-z\s]+?)(?:\s*$|,)'
   rCats [rAlts [rCats [rLit "CREDIT", rPlusG clsWS, rLit "CARD"],
       rCats [rLit "DEBIT", rPlusG clsWS, rLit "CARD"]], rPlusG clsWS,
     rLit "BILL", RE.starG clsColonWS, rPartyLazy, rTailEndComma],
   -- r'INSURANCE\s+(?:PREMIUM|PAYMENT)[:\s]*([A-Z][A-Za-z\s]+?)(?:\s*$|,)'
   rCats [rLit "INSURANCE", rPlusG clsWS,
     rAlts [rLit "PREMIUM", rLit "PAYMENT"], RE.starG clsColonWS,
     rPartyLazy, rTailEndComma],
   -- r'(?:BILL|PAYMENT)\s+(?:FOR|TO)?\s*([A-Z][A-Za-z\s]{2,})'
   rCats [rAlts [rLit "BILL", rLit "PAYMENT"], rPlusG clsWS,
     rOpt (rAlts [rLit "FOR", rLit "TO"]), RE.starG clsWS, rParty2]]

/-- `self.salary_patterns` (3 patterns). -/
def enSalaryPatterns : List RE :=
  [ -- r'SALARY\s+(?:FROM|TO)?\s*([A-Z][A-Za-z\s]+?)(?:\s*$|,)'
   rCats [rLit "SALARY", rPlusG clsWS, rOpt (rAlts [rLit "FROM", rLit "TO"]),
     RE.starG clsWS, rPartyLazy, rTailEndComma],
   -- r'INTEREST\s+(?:FROM|ON)?\s*([A-Z][A-Za-z\s]+?)(?:\s*$|,)'
   rCats [rLit "INTEREST", rPlusG clsWS, rOpt (rAlts [rLit "FROM", rLit "ON"]),
     RE.starG clsWS, rPartyLazy, rTailEndComma],
   -- r'DIVIDEND\s+(?:FROM)?\s*([A-Z][A-Za-z\s]+?)'
   rCats [rLit "DIVIDEND", rPlusG clsWS, rOpt (rLit "FROM"), RE.starG clsWS,
     rPartyLazy]]

/-- `self.interest_patterns` (4 patterns, no capture group). -/
def enInterestPatterns : List RE :=
  [ -- r'CASA\s+CREDIT\s+INTEREST\s+CAPITALIZED'
   rCats [rLit "CASA", rPlusG clsWS, rLit "CREDIT", rPlusG clsWS,
     rLit "INTEREST", rPlusG clsWS, rLit "CAPITALIZED"],
   -- r'INTEREST\s+CAPITALIZED'
   rCats [rLit "INTEREST", rPlusG clsWS, rLit "CAPITALIZED"],
   -- r'INTEREST\s+PAID'
   rCats [rLit "INTEREST", rPlusG clsWS, rLit "PAID"],
   -- r'INTEREST\s+CREDITED'
   rCats [rLit "INTEREST", rPlusG clsWS, rLit "CREDITED"]]

/-- The `_extract_party_advanced` preposition patterns. -/
def enAdvPatterns : List RE :=
  [ -- r'TO\s+([A-Z][A-Za-z\s]{2,})'
   rCats [rLit "TO", rPlusG clsWS, rParty2],
   -- r'FOR\s+([A-Z][A-Za-z\s]{2,})'
   rCats [rLit "FOR", rPlusG clsWS, rParty2],
   -- r'FROM\s+([A-Z][A-Za-z\s]{2,})'
   rCats [rLit "FROM", rPlusG clsWS, rParty2],
   -- r'AT\s+([A-Z][A-Za-z\s]{2,})'
   rCats [rLit "AT", rPlusG clsWS, rParty2],
   -- r'ON\s+([A-Z][A-Za-z\s]{2,})'
   rCats [rLit "ON", rPlusG clsWS, rParty2]]

/-- The nine ordered pattern groups of `extract_entity` step 2, paired with
the entity type each assigns. -/
def enPatternGroups : List (List RE × String) :=
  [(enUpiPatterns, "UPI"), (enRtgsPatterns, "Transfer"),
   (enNeftPatterns, "Transfer"), (enImpsPatterns, "Transfer"),
   (enTransferPatterns, "Transfer"), (enChequePatterns, "Cheque"),
   (enCashPatterns, "Cash"), (enBillPatterns, "Bill"),
   (enSalaryPatterns, "Income")]

/-- The step-2 candidate blacklist of `extract_entity`. -/
def enBlacklist : List String :=
  ["DR", "CR", "TRF", "BY", "TO", "FROM", "PAID", "RECEIVED", "TRANSFER",
   "DEPOSIT", "WITHDRAWAL", "BALANCE", "CHARGES", "FEE"]

/-- The transaction vocabulary blanked out by `_extract_party_advanced`'s
word salvage. -/
def advTransactionWords : List String :=
  ["DEPOSIT", "WITHDRAWAL", "PAYMENT", "TRANSFER", "CREDIT", "DEBIT",
   "BALANCE", "CHARGES", "FEE", "TAX", "EMI", "BILL", "SALARY",
   "INTEREST", "DIVIDEND", "REFUND", "REVERSAL", "CLEARING", "NO", "NUM"]

/-- The transaction vocabulary blanked out by `extract_entity`'s step-5
salvage (the advanced list plus six prepositions). -/
def step5TransactionWords : List String :=
  ["DEPOSIT", "WITHDRAWAL", "PAYMENT", "TRANSFER", "CREDIT", "DEBIT",
   "BALANCE", "CHARGES", "FEE", "TAX", "EMI", "BILL", "SALARY",
   "INTEREST", "DIVIDEND", "REFUND", "REVERSAL", "CLEARING", "NO", "NUM",
   "BY", "TO", "FROM", "FOR", "AT", "ON"]

/-- The prefix tokens stripped by `_extract_party_advanced` (no
TRANSFER/TRF, unlike `_normalize_name`). -/
def advLeadToks : List String :=
  ["TO", "FROM", "FOR", "AT", "ON", "BY", "REF", "REFNO", "NO", "NEW",
   "AC", "ACC", "ACCOUNT"]

/-- One entity row of `EntityNormalizer.entities` (the fields the claims
concern; the `upi_to_party` side table, never reachable from the live call
sites with a non-`None` handle, is not modelled). -/
structure NEntity where
  origNames : List String
  entityType : String
  txCount : ℕ
  totalCredit : ℚ
  totalDebit : ℚ
  upiHandles : List String
  deriving Repr, DecidableEq

/-- The entities table: an association list in insertion order, as a
Python dict. -/
abbrev NState := List (String × NEntity)

/-- Dict lookup. -/
def lookupE : NState → String → Option NEntity
  | [], _ => none
  | (k, e) :: rest, key => if k = key then some e else lookupE rest key

/-- Dict update of an existing key (first occurrence), preserving order. -/
def updateKey : NState → String → NEntity → NState
  | [], _, _ => []
  | (k, e) :: rest, key, e₂ =>
    if k = key then (k, e₂) :: rest else (k, e) :: updateKey rest key e₂

/-- Dict `pop`. -/
def removeKey (st : NState) (k : String) : NState :=
  st.filter (fun p => p.1 != k)

/-- Set insertion for the `original_names` / `upi_handles` sets. -/
def insertName (n : String) (l : List String) : List String :=
  if l.contains n then l else l ++ [n]

/-- The fresh row `_register_entity` creates on first sight of a key. -/
def freshEntity (original etype : String) : NEntity :=
  { origNames := [original], entityType := etype, txCount := 0,
    totalCredit := 0, totalDebit := 0, upiHandles := [] }

/-- The unconditional mutation `_register_entity` applies to the row: add
the original name, bump `transaction_count`, add `abs(amount)` to the
credit or debit total. -/
def bumpedEntity (base : NEntity) (original : String) (amount : ℚ)
    (isCredit : Bool) : NEntity :=
  { base with
    origNames := insertName original base.origNames,
    txCount := base.txCount + 1,
    totalCredit := base.totalCredit + (if isCredit then |amount| else 0),
    totalDebit := base.totalDebit + (if isCredit then 0 else |amount|) }

/-- `EntityNormalizer._register_entity` with `upi_handle = None` (the only
value the live call sites ever pass). -/
def registerEntity (st : NState) (normalized original etype : String)
    (amount : ℚ) (isCredit : Bool) : NState :=
  match lookupE st normalized with
  | some e => updateKey st normalized (bumpedEntity e original amount isCredit)
  | none =>
    st ++ [(normalized,
      bumpedEntity (freshEntity original etype) original amount isCredit)]

/-- The row that `merge_entities` folds `e₂` into `e₁` to produce. -/
def mergedEntity (e₁ e₂ : NEntity) : NEntity :=
  { e₁ with
    origNames := e₂.origNames.foldl (fun acc n => insertName n acc)
      e₁.origNames,
    txCount := e₁.txCount + e₂.txCount,
    totalCredit := e₁.totalCredit + e₂.totalCredit,
    totalDebit := e₁.totalDebit + e₂.totalDebit,
    upiHandles := e₂.upiHandles.foldl (fun acc n => insertName n acc)
      e₁.upiHandles }

/-- `EntityNormalizer.merge_entities`: normalize both arguments, fail when
either is unknown, succeed trivially when equal, else fold the second row
into the first and delete the second key. -/
def mergeEntities (st : NState) (a b : String) : Bool × NState :=
  let n₁ := normalizeName a
  let n₂ := normalizeName b
  match lookupE st n₁, lookupE st n₂ with
  | some e₁, some e₂ =>
    if n₁ = n₂ then (true, st)
    else (true, updateKey (removeKey st n₂) n₁ (mergedEntity e₁ e₂))
  | _, _ => (false, st)

/-- Step-1 interest check of `extract_entity`. -/
def interestHit (d : List Char) : Bool :=
  enInterestPatterns.any (fun r => (reSearch r d).isSome)

/-- Scan one pattern group: first pattern whose capture, upper-cased,
stripped and whitespace-collapsed, has length at least 2 and is not
blacklisted. -/
def scanGroupPatterns (d : List Char) : List RE → Option (List Char)
  | [] => none
  | r :: rest =>
    match reSearch r d with
    | some (_, some g) =>
      if g.isEmpty then scanGroupPatterns d rest
      else
        let cand := collapseL (pyStripL (pyUpperL g))
        if 2 ≤ cand.length && !(enBlacklist.any (fun b => b.data = cand)) then
          some cand
        else scanGroupPatterns d rest
    | _ => scanGroupPatterns d rest

/-- Step-2 scan of the nine pattern groups in order. -/
def scanGroups (d : List Char) :
    List (List RE × String) → Option (List Char × String)
  | [] => none
  | (ps, ty) :: rest =>
    match scanGroupPatterns d ps with
    | some cand => some (cand, ty)
    | none => scanGroups d rest

/-- Meaningful-word salvage (shared shape of `_extract_party_advanced`'s
tail and step 5): blank out the vocabulary as whole words, split, keep
words longer than 2 characters that are not all digits, join the first
three, upper-case. -/
def salvageWords (ws : List String) (d : List Char) : Option (List Char) :=
  let cleaned := ws.foldl (fun acc w => subWord w.data [' '] acc) d
  let words := pySplitL (pyStripL cleaned)
  let meaningful := words.filter (fun w => 2 < w.length && !pyIsDigitStr w)
  if meaningful.isEmpty then none
  else some (pyUpperL (joinSp (meaningful.take 3)))

/-- The preposition scan of `_extract_party_advanced`: first pattern whose
capture, after collapsing and stripping one leading prefix token, has
length at least 2. -/
def scanAdvPatterns (d : List Char) : List RE → Option (List Char)
  | [] => none
  | r :: rest =>
    match reSearch r d with
    | some (_, some g) =>
      let cand := stripLeadTok advLeadToks (collapseL (pyStripL (pyUpperL g)))
      if 2 ≤ cand.length then some cand else scanAdvPatterns d rest
    | _ => scanAdvPatterns d rest

/-- `EntityNormalizer._extract_party_advanced`. -/
def extractPartyAdvanced (d : List Char) : Option (List Char) :=
  match scanAdvPatterns d enAdvPatterns with
  | some c => some c
  | none => salvageWords advTransactionWords d

/-- Step 5 of `extract_entity`: the final meaningful-word salvage; the
candidate is normalized, and registered only when the normalized form has
length at least 2. -/
def extractEntityStep5 (st : NState) (d : List Char) (amount : ℚ)
    (isCredit : Bool) : Option String × NState :=
  match salvageWords step5TransactionWords d with
  | some cand₀ =>
    let cand := normalizeNameL cand₀
    if 2 ≤ cand.length then
      (some ⟨cand⟩, registerEntity st ⟨cand⟩ ⟨cand⟩ "General" amount isCredit)
    else (none, st)
  | none => (none, st)

/-- Steps 4–5 of `extract_entity`: advanced extraction, falling back to
the final salvage. -/
def extractEntitySteps45 (st : NState) (d : List Char) (amount : ℚ)
    (isCredit : Bool) : Option String × NState :=
  match extractPartyAdvanced d with
  | some ent =>
    let nz := normalizeNameL ent
    if nz ≠ [] ∧ 2 ≤ nz.length then
      (some ⟨nz⟩, registerEntity st ⟨nz⟩ ⟨ent⟩ "General" amount isCredit)
    else extractEntityStep5 st d amount isCredit
  | none => extractEntityStep5 st d amount isCredit

/-- `EntityNormalizer.extract_entity`: the full cascade.  Every successful
path registers the (normalized) party and returns it; unsuccessful paths
leave the state unchanged and return `none`. -/
def extractEntity (st : NState) (description : String) (amount : ℚ)
    (isCredit : Bool) : Option String × NState :=
  if description = "" then (none, st) else
  let d := pyStripL (pyUpperL description.data)
  let found : Option (List Char × String) :=
    if interestHit d then some ("INTEREST INCOME".data, "Income")
    else scanGroups d enPatternGroups
  match found with
  | some (ent, ty) =>
    let nz := normalizeNameL ent
    if nz ≠ [] ∧ 2 ≤ nz.length then
      (some ⟨nz⟩, registerEntity st ⟨nz⟩ ⟨ent⟩ ty amount isCredit)
    else extractEntitySteps45 st d amount isCredit
  | none => extractEntitySteps45 st d amount isCredit

/-! ## Entity table operations (for the state-invariant claims)

`extract_entity` mutates the entities table only through
`_register_entity`, and `auto_merge_similar_entities` mutates it only
through `merge_entities` calls on existing keys; a sequence of the listed
operations therefore covers every reachable table.  (The similarity scoring
that chooses which merges `auto_merge` performs does not affect the
invariants, which hold for arbitrary merge arguments.) -/

/-- One call mutating the entity table: a direct `_register_entity`, an
`extract_entity`, or a `merge_entities`. -/
inductive NOp where
  | reg (key orig etype : String) (amount : ℚ) (isCredit : Bool)
  | ext (description : String) (amount : ℚ) (isCredit : Bool)
  | mrg (a b : String)

/-- State effect of one operation. -/
def applyNOp (st : NState) : NOp → NState
  | .reg k o t a c => registerEntity st k o t a c
  | .ext d a c => (extractEntity st d a c).2
  | .mrg a b => (mergeEntities st a b).2

/-- Run a call sequence from a state. -/
def runOps : NState → List NOp → NState
  | st, [] => st
  | st, op :: ops => runOps (applyNOp st op) ops

/-- Number of `_register_entity` invocations one operation performs (an
`extract_entity` registers exactly when it returns a name). -/
def opRegCount (st : NState) : NOp → ℕ
  | .reg _ _ _ _ _ => 1
  | .ext d a c =>
    match (extractEntity st d a c).1 with
    | some _ => 1
    | none => 0
  | .mrg _ _ => 0

/-- Total `_register_entity` invocations performed by a call sequence. -/
def regsDone : NState → List NOp → ℕ
  | _, [] => 0
  | st, op :: ops => opRegCount st op + regsDone (applyNOp st op) ops

/-- Number of `_register_entity` invocations one operation performs for
the key `k`. -/
def opRegKey (st : NState) (k : String) : NOp → ℕ
  | .reg k₂ _ _ _ _ => if k₂ = k then 1 else 0
  | .ext d a c =>
    match (extractEntity st d a c).1 with
    | some k₂ => if k₂ = k then 1 else 0
    | none => 0
  | .mrg _ _ => 0

/-- `_register_entity` invocations for key `k` over a call sequence. -/
def regsForKey : NState → List NOp → String → ℕ
  | _, [], _ => 0
  | st, op :: ops, k => opRegKey st k op + regsForKey (applyNOp st op) ops k

/-- True when the sequence contains no `merge_entities` call. -/
def noMergeOps (ops : List NOp) : Bool :=
  ops.all (fun op => match op with | .mrg _ _ => false | _ => true)

/-- Sum of a field over all table rows. -/
def sumF {M : Type} [AddCommMonoid M] (f : NEntity → M) (st : NState) : M :=
  (st.map (fun p => f p.2)).sum

/-- Sum of `transaction_count` over the table. -/
def sumTx (st : NState) : ℕ := sumF NEntity.txCount st

/-- Sum of `total_credit` over the table. -/
def sumCredit (st : NState) : ℚ := sumF NEntity.totalCredit st

/-- Sum of `total_debit` over the table. -/
def sumDebit (st : NState) : ℚ := sumF NEntity.totalDebit st

/-- `transaction_count` of a key (0 when absent). -/
def txCountFor (st : NState) (k : String) : ℕ :=
  match lookupE st k with
  | some e => e.txCount
  | none => 0

/-- The key list of the table. -/
def keysOf (st : NState) : List String := st.map Prod.fst

/-- The table has pairwise-distinct keys (always true of a Python dict). -/
def nodupKeys (st : NState) : Prop := (keysOf st).Nodup

/-- Both running totals of every row are nonnegative. -/
def nonnegState (st : NState) : Prop :=
  ∀ p ∈ st, 0 ≤ p.2.totalCredit ∧ 0 ≤ p.2.totalDebit

/-! ## Fund flow chain builder (`fund_flow_chain_builder.py`) -/

/-- Python's `max` on two numbers (kernel-reducible form). -/
def pyMaxQ (a b : ℚ) : ℚ := if a < b then b else a

/-- Gregorian leap-year test, as `datetime` uses. -/
def isLeap (y : ℕ) : Bool := (y % 4 == 0 && !(y % 100 == 0)) || y % 400 == 0

/-- Days in a month of a given year (`datetime` calendar). -/
def daysInMonth (y m : ℕ) : ℕ :=
  match m with
  | 1 => 31
  | 2 => if isLeap y then 29 else 28
  | 3 => 31
  | 4 => 30
  | 5 => 31
  | 6 => 30
  | 7 => 31
  | 8 => 31
  | 9 => 30
  | 10 => 31
  | 11 => 30
  | _ => 31

/-- Days before the first of month `m` in year `y`. -/
def daysBeforeMonth (y m : ℕ) : ℕ :=
  (match m with
    | 1 => 0
    | 2 => 31
    | 3 => 59
    | 4 => 90
    | 5 => 120
    | 6 => 151
    | 7 => 181
    | 8 => 212
    | 9 => 243
    | 10 => 273
    | 11 => 304
    | _ => 334) +
  (if 2 < m && isLeap y then 1 else 0)

/-- Proleptic-Gregorian ordinal of a date, as `datetime.toordinal`; the
difference of two ordinals is `(d1 - d2).days`. -/
def toOrdinal (y m d : ℕ) : ℤ :=
  365 * ((y : ℤ) - 1) + ((y : ℤ) - 1) / 4 - ((y : ℤ) - 1) / 100 +
    ((y : ℤ) - 1) / 400 + daysBeforeMonth y m + d

/-- Read one or two leading digits (greedy), as `strptime`'s `%d`/`%m`
field patterns do for these separator-delimited formats. -/
def take2Digits (l : List Char) : Option (ℕ × List Char) :=
  match l with
  | [] => none
  | c₁ :: rest₁ =>
    if c₁.isDigit then
      match rest₁ with
      | c₂ :: rest₂ =>
        if c₂.isDigit then
          some ((c₁.toNat - 48) * 10 + (c₂.toNat - 48), rest₂)
        else some (c₁.toNat - 48, rest₁)
      | [] => some (c₁.toNat - 48, [])
    else none

/-- Read exactly four digits, as `strptime`'s `%Y` does. -/
def take4Digits (l : List Char) : Option (ℕ × List Char) :=
  match l with
  | a :: b :: c :: d :: rest =>
    if a.isDigit && b.isDigit && c.isDigit && d.isDigit then
      some ((((a.toNat - 48) * 10 + (b.toNat - 48)) * 10 +
        (c.toNat - 48)) * 10 + (d.toNat - 48), rest)
    else none
  | _ => none

/-- Consume one expected literal character. -/
def expectChar (c : Char) (l : List Char) : Option (List Char) :=
  match l with
  | [] => none
  | x :: rest => if x = c then some rest else none

/-- A one-or-two-digit field constrained to `[lo, hi]` (the range that
`strptime`'s field regex enforces). -/
def parseField2 (lo hi : ℕ) (l : List Char) : Option (ℕ × List Char) :=
  match take2Digits l with
  | none => none
  | some (v, rest) => if lo ≤ v && v ≤ hi then some (v, rest) else none

/-- `strptime` against a day–month–year format with separator `sep`. -/
def parseDMYwith (sep : Char) (l : List Char) : Option (ℕ × ℕ × ℕ) :=
  match parseField2 1 31 l with
  | none => none
  | some (d, r₁) =>
    match expectChar sep r₁ with
    | none => none
    | some r₂ =>
      match parseField2 1 12 r₂ with
      | none => none
      | some (m, r₃) =>
        match expectChar sep r₃ with
        | none => none
        | some r₄ =>
          match take4Digits r₄ with
          | none => none
          | some (y, r₅) => if r₅.isEmpty then some (y, m, d) else none

/-- `strptime` against `%Y-%m-%d`. -/
def parseYMDdash (l : List Char) : Option (ℕ × ℕ × ℕ) :=
  match take4Digits l with
  | none => none
  | some (y, r₁) =>
    match expectChar (Char.ofNat 45) r₁ with
    | none => none
    | some r₂ =>
      match parseField2 1 12 r₂ with
      | none => none
      | some (m, r₃) =>
        match expectChar (Char.ofNat 45) r₃ with
        | none => none
        | some r₄ =>
          match parseField2 1 31 r₄ with
          | none => none
          | some (d, r₅) => if r₅.isEmpty then some (y, m, d) else none

/-- `strptime` against `%m/%d/%Y`. -/
def parseMDYslash (l : List Char) : Option (ℕ × ℕ × ℕ) :=
  match parseField2 1 12 l with
  | none => none
  | some (m, r₁) =>
    match expectChar (Char.ofNat 47) r₁ with
    | none => none
    | some r₂ =>
      match parseField2 1 31 r₂ with
      | none => none
      | some (d, r₃) =>
        match expectChar (Char.ofNat 47) r₃ with
        | none => none
        | some r₄ =>
          match take4Digits r₄ with
          | none => none
          | some (y, r₅) => if r₅.isEmpty then some (y, m, d) else none

/-- One format attempt: structural parse, then the `datetime` range check
(a failure of either is the caught `ValueError`, and the loop continues
with the next format). -/
def tryFmt (p : List Char → Option (ℕ × ℕ × ℕ)) (l : List Char) :
    Option ℤ :=
  match p l with
  | none => none
  | some (y, m, d) =>
    if 1 ≤ y && 1 ≤ d && d ≤ daysInMonth y m then some (toOrdinal y m d)
    else none

/-- `_parse_date`: the four formats tried in order; the result is the
date's ordinal day. -/
def parseDateF (s : String) : Option ℤ :=
  if s.data.isEmpty then none
  else
    match tryFmt (parseDMYwith (Char.ofNat 47)) s.data with
    | some o => some o
    | none =>
      match tryFmt parseYMDdash s.data with
      | some o => some o
      | none =>
        match tryFmt (parseDMYwith (Char.ofNat 45)) s.data with
        | some o => some o
        | none => tryFmt parseMDYslash s.data

/-- `_is_date_proximate`: true when both dates parse and differ by at
most `maxDays` days, and also when either fails to parse. -/
def isDateProximate (maxDays : ℕ) (d1 d2 : String) : Bool :=
  match parseDateF d1, parseDateF d2 with
  | some a, some b => decide ((a - b).natAbs ≤ maxDays)
  | _, _ => true

/-- A `Transaction` as the chain builder reads it; `tid` stands for the
Python object identity `id(txn)` used in `visited_pairs`. -/
structure FTxn where
  tid : ℕ
  date : String
  party : Option String
  amount : ℚ
  credit : ℚ
  debit : ℚ
  isTransfer : Bool
  sourceFile : Option String

/-- `txn.party or "Unknown"` (Python truthiness: `None` and `""` are
falsy). -/
def partyOr (t : FTxn) : String :=
  match t.party with
  | some p => if p = "" then "Unknown" else p
  | none => "Unknown"

/-- Truthiness of an optional string. -/
def strTruthy : Option String → Bool
  | some s => !s.isEmpty
  | none => false

/-- `_calculate_confidence(txn1, txn2)`. -/
def calcConfidence (t1 t2 : FTxn) : ℚ :=
  let score : ℚ := 1/2
  let ad : ℚ := |(|t1.amount|) - (|t2.amount|)|
  let score := if ad ≤ 1 then score + 3/10
    else if ad ≤ 2 then score + 2/10
    else score - 1/10
  let score := if isDateProximate 0 t1.date t2.date then score + 1/10
    else if isDateProximate 1 t1.date t2.date then score + 1/20
    else score
  let score := if t1.isTransfer && t2.isTransfer then score + 1/10
    else score
  pyMinQ 1 (pyMaxQ 0 score)

/-- A produced `FundFlowChain`; `chainId` models the numeric component of
the `"chain_{n}"` identifier. -/
structure FChain where
  chainId : ℕ
  flowPath : String
  totalAmount : ℚ
  confidence : ℚ
  chainDepth : ℕ
  crossPdfLinks : ℕ

/-- The chain record built by `_build_single_chain` /
`_build_reverse_chain` (both compute `_calculate_confidence(debit,
credit)` and the flow path `credit_party -> debit_party`). -/
def mkChain (cid : ℕ) (credit debit : FTxn) (total : ℚ) : FChain :=
  { chainId := cid
    flowPath := partyOr credit ++ " -> " ++ partyOr debit
    totalAmount := total
    confidence := calcConfidence debit credit
    chainDepth := 2
    crossPdfLinks :=
      if strTruthy debit.sourceFile && strTruthy credit.sourceFile &&
          (debit.sourceFile != credit.sourceFile) then 1 else 0 }

/-- The probe keys `[a-1, a, a+1, a-2, a+2]`. -/
def amountKeys (a : ℤ) : List ℤ := [a - 1, a, a + 1, a - 2, a + 2]

/-- `_find_matching_credits`; a `_group_by_amount` bucket for key `k` is
the insertion-ordered sublist of transactions with `round(abs(amount)) =
k`, and an absent key is an empty bucket. -/
def findMatchingCredits (debit : FTxn) (credits : List FTxn)
    (visited : List (ℕ × ℕ)) : List FTxn :=
  let amount := pyRoundInt |debit.amount|
  ((amountKeys amount).foldl (fun acc k =>
    acc ++ ((credits.filter (fun c =>
        decide (pyRoundInt |c.amount| = k))).filter (fun c =>
      !visited.contains (c.tid, debit.tid) &&
      isDateProximate 1 debit.date c.date &&
      (pyUpperS (partyOr c) != pyUpperS (partyOr debit))))) []).take 5

/-- `_find_matching_debits`. -/
def findMatchingDebits (credit : FTxn) (debits : List FTxn)
    (visited : List (ℕ × ℕ)) : List FTxn :=
  let amount := pyRoundInt |credit.amount|
  ((amountKeys amount).foldl (fun acc k =>
    acc ++ ((debits.filter (fun d =>
        decide (pyRoundInt |d.amount| = k))).filter (fun d =>
      !visited.contains (credit.tid, d.tid) &&
      isDateProximate 1 credit.date d.date &&
      (pyUpperS (partyOr d) != pyUpperS (partyOr credit))))) []).take 5

/-- First pass of `build_chains`: for each debit, match source credits
and emit forward chains, threading `visited_pairs` and the chain counter. -/
def pass1 : List FTxn → List FTxn → List (ℕ × ℕ) → ℕ →
    List (ℕ × ℕ) × List FChain × ℕ
  | [], _, visited, cid => (visited, [], cid)
  | debit :: rest, credits, visited, cid =>
    let mc := findMatchingCredits debit credits visited
    let step := mc.foldl (fun st credit =>
      ((credit.tid, debit.tid) :: st.1,
        st.2.1 ++ [mkChain st.2.2 credit debit |debit.amount|],
        st.2.2 + 1)) (visited, [], cid)
    let next := pass1 rest credits step.1 step.2.2
    (next.1, step.2.1 ++ next.2.1, next.2.2)

/-- Second pass of `build_chains`: for each credit, match recipient
debits and emit reverse chains (total is the credit's amount). -/
def pass2 : List FTxn → List FTxn → List (ℕ × ℕ) → ℕ →
    List (ℕ × ℕ) × List FChain × ℕ
  | [], _, visited, cid => (visited, [], cid)
  | credit :: rest, debits, visited, cid =>
    let md := findMatchingDebits credit debits visited
    let step := md.foldl (fun st debit =>
      ((credit.tid, debit.tid) :: st.1,
        st.2.1 ++ [mkChain st.2.2 credit debit |credit.amount|],
        st.2.2 + 1)) (visited, [], cid)
    let next := pass2 rest debits step.1 step.2.2
    (next.1, step.2.1 ++ next.2.1, next.2.2)

/-- `build_chains()`: the resulting `self.chains`. -/
def buildChains (txns : List FTxn) : List FChain :=
  if txns.isEmpty then []
  else
    let credits := txns.filter (fun t => decide (0 < t.credit))
    let debits := txns.filter (fun t => decide (0 < t.debit))
    let p1 := pass1 debits credits [] 0
    let p2 := pass2 credits debits p1.1 p1.2.2
    p1.2.1 ++ p2.2.1


/-! ## PDF processor: `_parse_amount` and `_validate_and_clean`
(`pdf_processor.py`) -/

/-- Leftmost search that also splits the input: `(before, match, after)`. -/
def reSearchSplit (r : RE) (fuel : Nat) :
    List Char → Option (List Char × List Char × List Char)
  | [] =>
    match reMat fuel r [] none (fun rem cap => some (rem, cap)) with
    | some (rem, _) => some ([], [], rem)
    | none => none
  | c :: cs =>
    match reMat fuel r (c :: cs) none (fun rem cap => some (rem, cap)) with
    | some (rem, _) =>
      some ([], (c :: cs).take ((c :: cs).length - rem.length), rem)
    | none =>
      match reSearchSplit r fuel cs with
      | some (pre, m, rest) => some (c :: pre, m, rest)
      | none => none

/-- `re.findall` for a groupless pattern that never matches the empty
string: repeated non-overlapping leftmost matches. -/
def reFindAllCore (r : RE) : Nat → List Char → List (List Char)
  | 0, _ => []
  | fuel+1, l =>
    match reSearchSplit r (8 * l.length + 800) l with
    | none => []
    | some (_, m, rest) =>
      if m.isEmpty then [] else m :: reFindAllCore r fuel rest

/-- `re.findall(r, l)`. -/
def reFindAll (r : RE) (l : List Char) : List (List Char) :=
  reFindAllCore r (l.length + 1) l

/-- The digit class `\d`. -/
def rDigit : RE := RE.cls Char.isDigit

/-- `self.amount_pattern = r'[\d,]+\.?\d{0,2}'`. -/
def amountRE : RE :=
  rCats [rPlusG (RE.cls (fun c => c.isDigit || c == ',')),
    rOpt (RE.cls (fun c => c == '.')),
    rOpt (RE.cat rDigit (rOpt rDigit))]

/-- The `_parse_amount` extraction pattern `r'\d+\.?\d{0,2}'`. -/
def numRE : RE :=
  rCats [rPlusG rDigit,
    rOpt (RE.cls (fun c => c == '.')),
    rOpt (RE.cat rDigit (rOpt rDigit))]

/-- Value of a digit string. -/
def natOfDigits (l : List Char) : ℕ :=
  l.foldl (fun a c => a * 10 + (c.toNat - 48)) 0

/-- `float` of a string matched by `\d+\.?\d{0,2}`. -/
def floatOfMatch (l : List Char) : ℚ :=
  let ip := l.takeWhile Char.isDigit
  let rest := l.drop ip.length
  let frac :=
    match rest with
    | c :: f => if c == '.' then f else []
    | [] => []
  (natOfDigits ip : ℚ) + (natOfDigits frac : ℚ) / ((10 : ℚ) ^ frac.length)

/-- `str.replace(pat, '')`: drop non-overlapping occurrences of `pat`,
left to right. -/
def removeSubAux (pat : List Char) : Nat → List Char → List Char
  | 0, l => l
  | fuel+1, l =>
    match l with
    | [] => []
    | c :: cs =>
      if pat.isPrefixOf (c :: cs) && !pat.isEmpty then
        removeSubAux pat fuel ((c :: cs).drop pat.length)
      else c :: removeSubAux pat fuel cs

/-- `str.replace(pat, '')` at full fuel. -/
def pyRemoveStr (pat : String) (l : List Char) : List Char :=
  removeSubAux pat.data l.length l

/-- `_parse_amount`: strip formatting, read a sign, extract the first
numeric run. -/
def parseAmount (s : String) : ℚ :=
  if s.data.isEmpty then 0
  else
    let l := pyStripL (pyRemoveStr "rs." (pyRemoveStr "Rs."
      (pyRemoveStr "$" (pyRemoveStr "â‚¹" (pyRemoveStr "," s.data)))))
    let sgn :=
      if l.head? = some '(' ∧ l.getLast? = some ')' then
        (l.drop 1 |>.dropLast, true)
      else if l.head? = some '-' then (l.drop 1, true)
      else (l, false)
    match reSearch numRE sgn.1 with
    | some (m, _) => if sgn.2 then -(floatOfMatch m) else floatOfMatch m
    | none => 0

/-- Python `max` over a nonempty list (0 for an empty one, unreached). -/
def pyMaxList : List ℚ → ℚ
  | [] => 0
  | x :: xs => xs.foldl pyMaxQ x

/-- A transaction dict as `_validate_and_clean` reads it. -/
structure PTxn where
  date : String
  description : String
  credit : ℚ
  debit : ℚ
  balance : ℚ

/-- The dedup key `(date, description[:50], round(credit, 2),
round(debit, 2))`. -/
def tkey (t : PTxn) : String × String × ℚ × ℚ :=
  (t.date, ⟨t.description.data.take 50⟩, pyRound2 t.credit,
    pyRound2 t.debit)

/-- Ascending insertion (Python `sorted`; equal elements are
indistinguishable rationals). -/
def insertSorted (x : ℚ) : List ℚ → List ℚ
  | [] => [x]
  | y :: ys => if x ≤ y then x :: y :: ys else y :: insertSorted x ys

/-- `sorted(l)`. -/
def pySorted (l : List ℚ) : List ℚ := l.foldr insertSorted []

/-- The `balance_changes` list: absolute differences of consecutive
positive balances. -/
def balanceChanges : List PTxn → Option ℚ → List ℚ
  | [], _ => []
  | t :: rest, prev =>
    let here :=
      match prev with
      | some p => if 0 < t.balance then [|t.balance - p|] else []
      | none => []
    let prev2 := if 0 < t.balance then some t.balance else prev
    here ++ balanceChanges rest prev2

/-- `median_change = sorted(balance_changes)[len // 2]` (0 when empty). -/
def medianChange (ts : List PTxn) : ℚ :=
  match balanceChanges ts none with
  | [] => 0
  | bc => (pySorted bc).getD (bc.length / 2) 0

/-- One-per-row body of `_validate_and_clean`'s second pass.  `prevTxn`
is `transactions[idx - 1]` after its own iteration's mutations, `seen`
the dedup set, `prevBal` the running previous balance, `validated` the
output accumulator. -/
def vLoop (median : ℚ) :
    List PTxn → Option PTxn → List (String × String × ℚ × ℚ) →
      Option ℚ → List PTxn → List PTxn
  | [], _, _, _, validated => validated
  | txn :: rest, prevTxn, seen, prevBal, validated =>
    let key := tkey txn
    if seen.any (fun k => decide (key = k)) then
      vLoop median rest (some txn) seen prevBal validated
    else
      let seen2 := key :: seen
      let txn :=
        if txn.date = "" ∨ txn.description = "" then
          match prevTxn with
          | some p =>
            if txn.date = "" ∧ p.date ≠ "" then { txn with date := p.date }
            else txn
          | none => txn
        else txn
      if txn.date = "" ∨ txn.description = "" then
        vLoop median rest (some txn) seen2 prevBal validated
      else
        let credit := txn.credit
        let debit := txn.debit
        let balance := txn.balance
        let s1 :=
          if credit = 0 ∧ debit = 0 then
            match prevBal with
            | some p =>
              if 0 < balance then
                let d := balance - p
                if 0 < d then
                  ({ txn with credit := |d|, debit := debit }, |d|, debit)
                else
                  ({ txn with credit := credit, debit := |d| }, credit, |d|)
              else
                if 0 < balance ∧ 0 < median then
                  ({ txn with debit := median }, credit, median)
                else
                  match reSearch amountRE txn.description.data with
                  | some (m, _) =>
                    let r := parseAmount ⟨m⟩
                    if 0 < r then ({ txn with debit := r }, credit, r)
                    else (txn, credit, debit)
                  | none => (txn, credit, debit)
            | none =>
              if 0 < balance ∧ 0 < median then
                ({ txn with debit := median }, credit, median)
              else
                match reSearch amountRE txn.description.data with
                | some (m, _) =>
                  let r := parseAmount ⟨m⟩
                  if 0 < r then ({ txn with debit := r }, credit, r)
                  else (txn, credit, debit)
                | none => (txn, credit, debit)
          else (txn, credit, debit)
        let txn := s1.1
        let credit := s1.2.1
        let debit := s1.2.2
        let s2 :=
          if txn.credit = 0 ∧ txn.debit = 0 then
            let amounts := ((reFindAll amountRE txn.description.data).map
              (fun m => parseAmount ⟨m⟩)).filter (fun a => decide (0 < a))
            match amounts with
            | [] => (txn, debit)
            | _ :: _ =>
              let recovered := pyMaxList amounts
              if 100 < recovered then
                ({ txn with debit := recovered }, recovered)
              else (txn, debit)
          else (txn, debit)
        let txn := s2.1
        let debit := s2.2
        let s3 :=
          match prevBal with
          | some p =>
            if 0 < balance then
              let expected := p + credit - debit
              let bd := |expected - balance|
              if 1 < bd ∧ credit = 0 ∧ debit = 0 then
                let change := balance - p
                if 0 < change then
                  ({ txn with credit := change }, change, debit)
                else ({ txn with debit := |change| }, credit, |change|)
              else (txn, credit, debit)
            else (txn, credit, debit)
          | none => (txn, credit, debit)
        let txn := s3.1
        let credit := s3.2.1
        let debit := s3.2.2
        if txn.credit = 0 ∧ txn.debit = 0 then
          vLoop median rest (some txn) seen2 prevBal validated
        else
          let prevBal2 :=
            if 0 < balance then some balance
            else if 0 < credit then some (prevBal.getD 0 + credit)
            else if 0 < debit then some (prevBal.getD 0 - debit)
            else prevBal
          vLoop median rest (some txn) seen2 prevBal2 (validated ++ [txn])

/-- `_validate_and_clean(transactions)`. -/
def validateAndClean (ts : List PTxn) : List PTxn :=
  vLoop (medianChange ts) ts none [] none []


/-! ## `/api/analyze` upload validation (`main.py`) -/

/-- `SUPPORTED_EXTENSIONS = ('.xls', '.xlsx', '.pdf')`. -/
def SUPPORTED_EXTENSIONS : List String := [".xls", ".xlsx", ".pdf"]

/-- `s.endswith(tuple)`. -/
def endsWithAny (s : String) (sufs : List String) : Bool :=
  sufs.any (fun suf => suf.data.isSuffixOf s.data)

/-- Outcome of the dispatched extractor call on the file bytes: a
transaction count, or a raised exception's text. -/
inductive ExtractOutcome where
  | ok (txns : ℕ)
  | exc (msg : String)

/-- The validation prefix of `analyze_statement`: the `HTTPException`
`(status, detail)` it raises, or `none` when analysis proceeds.  The
extension gate runs first, then the empty-body gate, then the extractor
(Excel errors and PDF errors/zero-rows inside their `try` blocks), then
the generic zero-transaction gate. -/
def analyzeValidate (filename : String) (nbytes : ℕ)
    (ext : ExtractOutcome) : Option (ℕ × String) :=
  let lower := pyLowerS filename
  if !endsWithAny lower SUPPORTED_EXTENSIONS then
    some (400, "Only .xls, .xlsx, .pdf files are supported")
  else if nbytes = 0 then some (400, "Empty file")
  else if endsWithAny lower [".xls", ".xlsx"] then
    match ext with
    | .exc msg => some (400, "Failed to process Excel file: " ++ msg)
    | .ok n =>
      if n = 0 then
        some (400,
          "No transactions found. Please ensure the file contains valid bank statement data.")
      else none
  else
    match ext with
    | .exc msg => some (400, "Failed to process PDF file: " ++ msg)
    | .ok n =>
      if n = 0 then
        some (400, "Failed to process PDF file: No transactions found in PDF.")
      else none


-- ===== THEOREMS =====

/-! ### Claims C1 and C10: the transaction categorizer -/

/-- Soundness of the inner pattern scan: a returned length is the length of
some matching pattern of the scanned list, strictly above the running
maximum. -/
theorem scanPats_sound {desc : List Char} {maxL L : ℕ} :
    ∀ {ps : List String}, scanPats desc maxL ps = some L →
      ∃ p ∈ ps, reSearchSimple p desc = true ∧ p.length = L ∧ maxL < L := by
  intro ps
  induction ps with
  | nil => intro h; simp [scanPats] at h
  | cons p ps ih =>
    intro h
    rw [scanPats] at h
    by_cases hc : (reSearchSimple p desc && decide (maxL < p.length)) = true
    · rw [if_pos hc] at h
      rcases Bool.and_eq_true_iff.mp hc with ⟨h₁, h₂⟩
      exact ⟨p, List.mem_cons_self .., h₁, by injection h, by
        simpa using (Option.some.inj h) ▸ (of_decide_eq_true h₂)⟩
    · rw [if_neg hc] at h
      obtain ⟨q, hq, hm, hl, hgt⟩ := ih h
      exact ⟨q, List.mem_cons_of_mem _ hq, hm, hl, hgt⟩

/-- Soundness of the category fold: whenever the accumulator ends up
naming a category, that category owns a matching pattern whose literal
length is the recorded maximum. -/
theorem catFold_sound {desc : List Char} :
    ∀ (tbl : List (String × List String)) (acc : Option String × ℕ),
      (∀ e ∈ tbl, e ∈ categoryPatterns) →
      (∀ c, acc.1 = some c → ∃ ps p, (c, ps) ∈ categoryPatterns ∧ p ∈ ps ∧
        reSearchSimple p desc = true ∧ p.length = acc.2) →
      ∀ c, (catFold desc tbl acc).1 = some c →
        ∃ ps p, (c, ps) ∈ categoryPatterns ∧ p ∈ ps ∧
          reSearchSimple p desc = true ∧
          p.length = (catFold desc tbl acc).2 := by
  intro tbl
  induction tbl with
  | nil => intro acc _ hacc c h; exact hacc c h
  | cons e rest ih =>
    intro acc htbl hacc c h
    rcases e with ⟨c₀, ps₀⟩
    rw [catFold] at h ⊢
    cases hscan : scanPats desc acc.2 ps₀ with
    | none =>
      rw [hscan] at h
      exact ih acc (fun x hx => htbl x (List.mem_cons_of_mem _ hx)) hacc c h
    | some L =>
      rw [hscan] at h
      refine ih (some c₀, L) (fun x hx => htbl x (List.mem_cons_of_mem _ hx))
        ?_ c h
      intro c₁ hc₁
      obtain ⟨p, hp, hm, hl, _⟩ := scanPats_sound hscan
      cases hc₁
      exact ⟨ps₀, p, htbl _ (List.mem_cons_self ..), hp, hm, hl⟩

/-- Claim C1 (amended): when the categorizer's greedy scan selects a
category, that category owns a matching pattern whose literal length `L`
is the recorded maximum, the returned category is the selected one, and
`narration_risk_confidence = round(min(0.95, 0.5 + L/100), 3)`.  The scan
is greedy — it adopts, per category, the first matching pattern longer than
the running maximum and then skips the category's remaining patterns — so
the selected pattern need not be the longest matching pattern overall (see
the counterexample theorem). -/
theorem categorizer_greedy_scan_sound (description : String)
    (credit debit : ℚ) (c : String)
    (h : (catFold (pyLowerL description.data) categoryPatterns
      (none, 0)).1 = some c) :
    ∃ ps p, (c, ps) ∈ categoryPatterns ∧ p ∈ ps ∧
      reSearchSimple p (pyLowerL description.data) = true ∧
      (categorizeTransaction description credit debit).category = c ∧
      (categorizeTransaction description credit debit).narration_risk_confidence
        = pyRound3 (pyMinQ (95/100) (1/2 + (p.length : ℚ)/100)) := by
  obtain ⟨ps, p, hmem, hp, hmatch, hlen⟩ :=
    catFold_sound categoryPatterns (none, 0) (fun e he => he)
      (by intro c hc; simp at hc) c h
  refine ⟨ps, p, hmem, hp, hmatch, ?_, ?_⟩
  · simp only [categorizeTransaction]
    rw [h]
  · simp only [categorizeTransaction]
    rw [h, hlen]

/-- Witness for the amended claim C1 at a concrete input: on the narration
`"salary"` the scan selects `Income` with pattern length 6 and the stated
confidence formula. -/
theorem categorizer_greedy_scan_sound_witness :
    (catFold (pyLowerL "salary".data) categoryPatterns (none, 0)).1 =
      some "Income" ∧
    (∃ ps p, ("Income", ps) ∈ categoryPatterns ∧ p ∈ ps ∧
      reSearchSimple p (pyLowerL "salary".data) = true ∧
      (categorizeTransaction "salary" 0 0).category = "Income" ∧
      (categorizeTransaction "salary" 0 0).narration_risk_confidence
        = pyRound3 (pyMinQ (95/100) (1/2 + (p.length : ℚ)/100))) :=
  ⟨by decide, categorizer_greedy_scan_sound "salary" 0 0 "Income" (by decide)⟩

/-- Counterexample to claim C1 as stated: on the narration
`"salary transfer payment"` the longest matching pattern overall is
`salary.*transfer` (length 16, category `Income` under the spec's selection
rule `specLongestMatch`), but the source's greedy scan breaks out of
`Income` at the 6-character pattern `salary` and later adopts `Expense` via
the 7-character pattern `payment`; the confidence is `0.57`, not
`min(0.95, 0.5 + 16/100) = 0.66`. -/
theorem categorizer_longest_match_counterexample :
    specLongestMatch (pyLowerL "salary transfer payment".data) =
      some ("Income", 16) ∧
    reSearchSimple "salary.*transfer"
      (pyLowerL "salary transfer payment".data) = true ∧
    (categoryPatterns.all (fun e => e.2.all (fun p =>
      !reSearchSimple p (pyLowerL "salary transfer payment".data) ||
        decide (p.length ≤ 16)))) = true ∧
    (categorizeTransaction "salary transfer payment" 0 100).category =
      "Expense" ∧
    (categorizeTransaction "salary transfer payment" 0 100).narration_risk_confidence
      = 57/100 ∧
    "Expense" ≠ "Income" ∧
    (57/100 : ℚ) ≠ pyMinQ (95/100) (1/2 + (16 : ℚ)/100) := by
  refine ⟨by decide, by decide, by decide, by decide, ?_, by decide, ?_⟩
  · have h : catFold (pyLowerL "salary transfer payment".data)
        categoryPatterns (none, 0) = (some "Expense", 7) := by decide
    simp only [categorizeTransaction, h]
    norm_num [pyRound3, pyRoundInt, pyMinQ]
  · norm_num [pyMinQ]

/-- Claim C10: `behavioral_deviation` is `"Uncategorized"` exactly when the
effective amount (`credit` when nonzero, else `debit`) lies in
`[10, 100000]` and the category is `Unknown`; in particular a transaction
with `credit = debit = 0` is tagged `"Micro Transaction"` because the
amount thresholds are checked before the category. -/
theorem behavioral_deviation_uncategorized_range (description : String)
    (credit debit : ℚ) :
    ((categorizeTransaction description credit debit).behavioral_deviation =
        "Uncategorized" ↔
      (10 ≤ (if credit ≠ 0 then credit else debit) ∧
        (if credit ≠ 0 then credit else debit) ≤ 100000 ∧
        (categorizeTransaction description credit debit).category =
          "Unknown")) ∧
    (credit = 0 → debit = 0 →
      (categorizeTransaction description credit debit).behavioral_deviation =
        "Micro Transaction") := by
  have hbd : (categorizeTransaction description credit debit).behavioral_deviation
      = behavioralDeviation credit debit
        ((categorizeTransaction description credit debit).category) := rfl
  rw [hbd]
  simp only [behavioralDeviation]
  constructor
  · set a := if credit ≠ 0 then credit else debit with ha
    split_ifs with h₁ h₂ h₃
    · refine iff_of_false (by decide) ?_
      rintro ⟨-, h, -⟩
      exact absurd h (not_le.mpr h₁)
    · refine iff_of_false (by decide) ?_
      rintro ⟨h, -, -⟩
      exact absurd h (not_le.mpr h₂)
    · exact iff_of_true rfl ⟨not_lt.mp h₂, not_lt.mp h₁, h₃⟩
    · refine iff_of_false (by decide) ?_
      rintro ⟨-, -, h⟩
      exact h₃ h
  · intro hc hd
    rw [hc, hd]
    norm_num

/-- Witness for claim C10 at a concrete input: a transaction with zero
credit and zero debit is tagged `"Micro Transaction"`. -/
theorem behavioral_deviation_uncategorized_range_witness :
    (categorizeTransaction "xqzv" 0 0).behavioral_deviation =
      "Micro Transaction" :=
  (behavioral_deviation_uncategorized_range "xqzv" 0 0).2 rfl rfl

/-! ### Claim C3: idempotence of `_normalize_name` -/

/-- A map whose function fixes every member is the identity. -/
theorem map_eq_self_of_mem {α : Type} {f : α → α} :
    ∀ {l : List α}, (∀ c ∈ l, f c = c) → l.map f = l := by
  intro l
  induction l with
  | nil => intro _; rfl
  | cons c cs ih =>
    intro h
    rw [List.map_cons, h c (List.mem_cons_self ..),
      ih (fun x hx => h x (List.mem_cons_of_mem _ hx))]

/-- Unfolding lemma for `pySplitL` at a cons cell. -/
theorem pySplitL_cons (c : Char) (cs : List Char) :
    pySplitL (c :: cs) =
      if pyIsSpace c then pySplitL cs
      else
        match cs with
        | [] => [[c]]
        | d :: _ =>
          if pyIsSpace d then [c] :: pySplitL cs
          else
            match pySplitL cs with
            | [] => [[c]]
            | w :: ws => (c :: w) :: ws := rfl

/-- `joinSp` on a singleton. -/
theorem joinSp_single (w : List Char) : joinSp [w] = w := rfl

/-- `joinSp` on two or more words. -/
theorem joinSp_pair (w w' : List Char) (ws : List (List Char)) :
    joinSp (w :: w' :: ws) = w ++ ' ' :: joinSp (w' :: ws) := rfl

/-- Words produced by `pySplitL` are nonempty, whitespace-free, and drawn
from the input. -/
theorem pySplitL_sound :
    ∀ (l : List Char), ∀ w ∈ pySplitL l,
      w ≠ [] ∧ ∀ c ∈ w, pyIsSpace c = false ∧ c ∈ l := by
  intro l
  induction l with
  | nil => intro w hw; simp [pySplitL] at hw
  | cons c cs ih =>
    intro w hw
    rw [pySplitL_cons] at hw
    split at hw
    · obtain ⟨h1, h2⟩ := ih w hw
      exact ⟨h1, fun x hx =>
        ⟨(h2 x hx).1, List.mem_cons_of_mem _ (h2 x hx).2⟩⟩
    · rename_i hc
      split at hw
      · simp only [List.mem_singleton] at hw
        subst hw
        refine ⟨by simp, ?_⟩
        intro x hx
        simp only [List.mem_singleton] at hx
        subst hx
        exact ⟨by simpa using hc, List.mem_cons_self ..⟩
      · rename_i d t
        split at hw
        · rcases List.mem_cons.mp hw with h | h
          · subst h
            refine ⟨by simp, ?_⟩
            intro x hx
            simp only [List.mem_singleton] at hx
            subst hx
            exact ⟨by simpa using hc, List.mem_cons_self ..⟩
          · obtain ⟨h1, h2⟩ := ih w h
            exact ⟨h1, fun x hx =>
              ⟨(h2 x hx).1, List.mem_cons_of_mem _ (h2 x hx).2⟩⟩
        · split at hw
          · simp only [List.mem_singleton] at hw
            subst hw
            refine ⟨by simp, ?_⟩
            intro x hx
            simp only [List.mem_singleton] at hx
            subst hx
            exact ⟨by simpa using hc, List.mem_cons_self ..⟩
          · rename_i w₀ ws heq
            rcases List.mem_cons.mp hw with h | h
            · subst h
              have hmem : w₀ ∈ pySplitL (d :: t) := by
                rw [heq]; exact List.mem_cons_self ..
              obtain ⟨h1, h2⟩ := ih w₀ hmem
              refine ⟨by simp, ?_⟩
              intro x hx
              rcases List.mem_cons.mp hx with hx | hx
              · subst hx
                exact ⟨by simpa using hc, List.mem_cons_self ..⟩
              · exact ⟨(h2 x hx).1, List.mem_cons_of_mem _ (h2 x hx).2⟩
            · have hmem : w ∈ pySplitL (d :: t) := by
                rw [heq]; exact List.mem_cons_of_mem _ h
              obtain ⟨h1, h2⟩ := ih w hmem
              exact ⟨h1, fun x hx =>
                ⟨(h2 x hx).1, List.mem_cons_of_mem _ (h2 x hx).2⟩⟩

/-- Splitting a single nonempty whitespace-free word gives that word. -/
theorem pySplitL_token_nil :
    ∀ (w : List Char), w ≠ [] → (∀ c ∈ w, pyIsSpace c = false) →
      pySplitL w = [w] := by
  intro w
  induction w with
  | nil => intro h _; exact absurd rfl h
  | cons c cs ih =>
    intro _ hns
    have h1 : pyIsSpace c = false := hns c (List.mem_cons_self ..)
    rw [pySplitL_cons, if_neg (by simp [h1])]
    cases cs with
    | nil => rfl
    | cons d t =>
      have h2 : pyIsSpace d = false := hns d (by simp)
      have h3 : pySplitL (d :: t) = [d :: t] :=
        ih (by simp) (fun x hx => hns x (List.mem_cons_of_mem _ hx))
      simp only []
      rw [if_neg (by simp [h2]), h3]

/-- Splitting `w ++ ' ' :: r` peels off the leading word `w`. -/
theorem pySplitL_token_app :
    ∀ (w r : List Char), w ≠ [] → (∀ c ∈ w, pyIsSpace c = false) →
      pySplitL (w ++ ' ' :: r) = w :: pySplitL r := by
  intro w
  induction w with
  | nil => intro r h _; exact absurd rfl h
  | cons c cs ih =>
    intro r _ hns
    have h1 : pyIsSpace c = false := hns c (List.mem_cons_self ..)
    cases cs with
    | nil =>
      have hsp : pySplitL (' ' :: r) = pySplitL r := by
        rw [pySplitL_cons, if_pos (by decide)]
      show pySplitL (c :: ' ' :: r) = [c] :: pySplitL r
      rw [pySplitL_cons, if_neg (by simp [h1])]
      simp only []
      rw [if_pos (by decide), hsp]
    | cons d t =>
      have h2 : pyIsSpace d = false := hns d (by simp)
      have h3 : pySplitL ((d :: t) ++ ' ' :: r) = (d :: t) :: pySplitL r :=
        ih r (by simp) (fun x hx => hns x (List.mem_cons_of_mem _ hx))
      show pySplitL (c :: ((d :: t) ++ ' ' :: r)) = (c :: d :: t) :: pySplitL r
      rw [pySplitL_cons, if_neg (by simp [h1])]
      simp only [List.cons_append]
      rw [if_neg (by simp [h2])]
      rw [← List.cons_append, h3]

/-- `pySplitL` is a left inverse of `joinSp` on lists of nonempty
whitespace-free words. -/
theorem pySplitL_joinSp :
    ∀ (ws : List (List Char)),
      (∀ w ∈ ws, w ≠ [] ∧ ∀ c ∈ w, pyIsSpace c = false) →
      pySplitL (joinSp ws) = ws := by
  intro ws
  induction ws with
  | nil => intro _; rfl
  | cons w ws ih =>
    intro h
    cases ws with
    | nil =>
      exact pySplitL_token_nil w (h w (List.mem_cons_self ..)).1
        (h w (List.mem_cons_self ..)).2
    | cons w' ws' =>
      rw [joinSp_pair, pySplitL_token_app w _ (h w (List.mem_cons_self ..)).1
        (h w (List.mem_cons_self ..)).2,
        ih (fun x hx => h x (List.mem_cons_of_mem _ hx))]

/-- Members of a space-join come from a word or are the separator. -/
theorem mem_joinSp :
    ∀ (ws : List (List Char)) (c : Char), c ∈ joinSp ws →
      c = ' ' ∨ ∃ w ∈ ws, c ∈ w := by
  intro ws
  induction ws with
  | nil => intro c hc; simp [joinSp] at hc
  | cons w ws ih =>
    intro c hc
    cases ws with
    | nil => exact Or.inr ⟨w, List.mem_cons_self .., hc⟩
    | cons w' ws' =>
      rw [joinSp_pair] at hc
      rcases List.mem_append.mp hc with h | h
      · exact Or.inr ⟨w, List.mem_cons_self .., h⟩
      · rcases List.mem_cons.mp h with h | h
        · exact Or.inl h
        · rcases ih c h with h | ⟨w₀, hw₀, hcw⟩
          · exact Or.inl h
          · exact Or.inr ⟨w₀, List.mem_cons_of_mem _ hw₀, hcw⟩

/-- A space-join of nonempty words is nonempty when the list is. -/
theorem joinSp_ne_nil :
    ∀ (ws : List (List Char)), ws ≠ [] → (∀ w ∈ ws, w ≠ []) →
      joinSp ws ≠ [] := by
  intro ws hne h
  cases ws with
  | nil => exact absurd rfl hne
  | cons w ws =>
    cases ws with
    | nil => exact h w (List.mem_cons_self ..)
    | cons w' ws' =>
      rw [joinSp_pair]
      cases hw : w with
      | nil => exact absurd hw (h w (List.mem_cons_self ..))
      | cons x xs => simp

/-- `getLast?` returns a member. -/
theorem mem_of_getLastEq :
    ∀ {l : List Char} {a : Char}, l.getLast? = some a → a ∈ l := by
  intro l
  induction l with
  | nil => intro a h; simp at h
  | cons x xs ih =>
    intro a h
    cases xs with
    | nil => simp at h; subst h; exact List.mem_cons_self ..
    | cons y t =>
      rw [List.getLast?_cons_cons] at h
      exact List.mem_cons_of_mem _ (ih h)

/-- The last character of a space-join of good words is not whitespace. -/
theorem joinSp_getLast_nonspace :
    ∀ (ws : List (List Char)),
      (∀ w ∈ ws, w ≠ [] ∧ ∀ c ∈ w, pyIsSpace c = false) →
      ∀ a, (joinSp ws).getLast? = some a → pyIsSpace a = false := by
  intro ws
  induction ws with
  | nil => intro _ a ha; simp [joinSp] at ha
  | cons w ws ih =>
    intro h a ha
    cases ws with
    | nil =>
      exact ((h w (List.mem_cons_self ..)).2 a (mem_of_getLastEq ha))
    | cons w' ws' =>
      rw [joinSp_pair] at ha
      have hne : joinSp (w' :: ws') ≠ [] :=
        joinSp_ne_nil _ (by simp)
          (fun x hx => (h x (List.mem_cons_of_mem _ hx)).1)
      rw [List.getLast?_append_of_ne_nil _ (by simp)] at ha
      cases hj : joinSp (w' :: ws') with
      | nil => exact absurd hj hne
      | cons y t =>
        rw [hj, List.getLast?_cons_cons] at ha
        refine ih (fun x hx => h x (List.mem_cons_of_mem _ hx)) a ?_
        rw [hj]
        exact ha

/-- The first character of a space-join of good words is not whitespace. -/
theorem joinSp_head_nonspace :
    ∀ (ws : List (List Char)),
      (∀ w ∈ ws, w ≠ [] ∧ ∀ c ∈ w, pyIsSpace c = false) →
      ∀ a, (joinSp ws).head? = some a → pyIsSpace a = false := by
  intro ws h a ha
  cases ws with
  | nil => simp [joinSp] at ha
  | cons w ws =>
    have hw := h w (List.mem_cons_self ..)
    cases ws with
    | nil =>
      cases hww : w with
      | nil => exact absurd hww hw.1
      | cons x xs =>
        rw [joinSp_single, hww] at ha
        simp at ha
        subst ha
        exact hw.2 _ (by rw [hww]; exact List.mem_cons_self ..)
    | cons w' ws' =>
      rw [joinSp_pair] at ha
      cases hww : w with
      | nil => exact absurd hww hw.1
      | cons x xs =>
        rw [hww, List.cons_append] at ha
        simp at ha
        subst ha
        exact hw.2 _ (by rw [hww]; exact List.mem_cons_self ..)

/-- `dropWhile` does nothing when the head fails the predicate. -/
theorem dropWhile_eq_self_of_head {p : Char → Bool} :
    ∀ (l : List Char), (∀ c, l.head? = some c → p c = false) →
      l.dropWhile p = l := by
  intro l h
  cases l with
  | nil => rfl
  | cons c cs => simp [List.dropWhile_cons, h c rfl]

/-- Collapsed strings are already stripped. -/
theorem pyStripL_collapseL (l : List Char) :
    pyStripL (collapseL l) = collapseL l := by
  have hgood : ∀ w ∈ pySplitL l, w ≠ [] ∧ ∀ c ∈ w, pyIsSpace c = false :=
    fun w hw => ⟨(pySplitL_sound l w hw).1,
      fun c hc => ((pySplitL_sound l w hw).2 c hc).1⟩
  have h1 : (collapseL l).dropWhile pyIsSpace = collapseL l :=
    dropWhile_eq_self_of_head _
      (fun c hc => joinSp_head_nonspace (pySplitL l) hgood c hc)
  have h2 : (collapseL l).reverse.dropWhile pyIsSpace = (collapseL l).reverse :=
    dropWhile_eq_self_of_head _
      (fun c hc => joinSp_getLast_nonspace (pySplitL l) hgood c
        (by rwa [List.head?_reverse] at hc))
  rw [pyStripL, h1, h2, List.reverse_reverse]

/-- Whitespace collapsing is idempotent. -/
theorem collapseL_idem (l : List Char) :
    collapseL (collapseL l) = collapseL l := by
  have hgood : ∀ w ∈ pySplitL l, w ≠ [] ∧ ∀ c ∈ w, pyIsSpace c = false :=
    fun w hw => ⟨(pySplitL_sound l w hw).1,
      fun c hc => ((pySplitL_sound l w hw).2 c hc).1⟩
  show joinSp (pySplitL (joinSp (pySplitL l))) = collapseL l
  rw [pySplitL_joinSp (pySplitL l) hgood]
  rfl

/-- Members of a collapsed string are spaces or non-whitespace members of
the original. -/
theorem mem_collapseL {l : List Char} {c : Char} (h : c ∈ collapseL l) :
    c = ' ' ∨ (c ∈ l ∧ pyIsSpace c = false) := by
  rcases mem_joinSp (pySplitL l) c h with h | ⟨w, hw, hcw⟩
  · exact Or.inl h
  · have := (pySplitL_sound l w hw).2 c hcw
    exact Or.inr ⟨this.2, this.1⟩

/-- Unfolding lemma for `subWordAux` at positive fuel. -/
theorem subWordAux_succ (w repl : List Char) (fuel : Nat) (prevW : Bool)
    (l : List Char) :
    subWordAux w repl (fuel+1) prevW l =
      match l with
      | [] => []
      | c :: cs =>
        if !prevW && !w.isEmpty && w.isPrefixOf (c :: cs) &&
            boundaryOk ((c :: cs).drop w.length) then
          repl ++ subWordAux w repl fuel true ((c :: cs).drop w.length)
        else c :: subWordAux w repl fuel (pyIsWord c) cs := rfl

/-- Characters produced by word-boundary substitution come from the
replacement or the input. -/
theorem mem_subWordAux {w repl : List Char} :
    ∀ (fuel : Nat) (b : Bool) (l : List Char) (c : Char),
      c ∈ subWordAux w repl fuel b l → c ∈ repl ∨ c ∈ l := by
  intro fuel
  induction fuel with
  | zero => intro b l c hc; rw [subWordAux] at hc; exact Or.inr hc
  | succ fuel ih =>
    intro b l c hc
    rw [subWordAux_succ] at hc
    cases l with
    | nil => simp at hc
    | cons x xs =>
      simp only [] at hc
      split at hc
      · rcases List.mem_append.mp hc with h | h
        · exact Or.inl h
        · rcases ih _ _ _ h with h | h
          · exact Or.inl h
          · exact Or.inr (List.drop_subset _ _ h)
      · rcases List.mem_cons.mp hc with h | h
        · exact Or.inr (h ▸ List.mem_cons_self ..)
        · rcases ih _ _ _ h with h | h
          · exact Or.inl h
          · exact Or.inr (List.mem_cons_of_mem _ h)

/-- Deleting word-boundary occurrences only removes characters. -/
theorem subWord_subset (w l : List Char) : subWord w [] l ⊆ l := by
  intro c hc
  rcases mem_subWordAux _ _ _ _ hc with h | h
  · simp at h
  · exact h

/-- Stripping only removes characters. -/
theorem pyStripL_subset (l : List Char) : pyStripL l ⊆ l := by
  intro c hc
  rw [pyStripL] at hc
  rw [List.mem_reverse] at hc
  have hc := (List.dropWhile_sublist _).subset hc
  rw [List.mem_reverse] at hc
  exact (List.dropWhile_sublist _).subset hc

/-- The suffix-removal loop only removes characters. -/
theorem foldlStrip_subset :
    ∀ (ws : List String) (l : List Char),
      (ws.foldl (fun acc w => pyStripL (subWord w.data [] acc)) l) ⊆ l := by
  intro ws
  induction ws with
  | nil => intro l c hc; exact hc
  | cons w ws ih =>
    intro l c hc
    rw [List.foldl_cons] at hc
    exact subWord_subset _ _ (pyStripL_subset _ (ih _ hc))

/-- `suffixStep` only removes characters. -/
theorem suffixStep_subset (l : List Char) : suffixStep l ⊆ l :=
  foldlStrip_subset suffixesToRemove l

/-- Prefix-token stripping only removes characters. -/
theorem stripLeadTok_subset (ps : List String) (l : List Char) :
    stripLeadTok ps l ⊆ l := by
  intro c hc
  rw [stripLeadTok] at hc
  split at hc
  · have hc := (List.dropWhile_sublist _).subset hc
    exact List.drop_subset _ _ hc
  · exact hc

/-- `pyUpperChar` is idempotent. -/
theorem pyUpperChar_idem (c : Char) :
    pyUpperChar (pyUpperChar c) = pyUpperChar c := by
  have hall : ∀ p ∈ asciiCasePairs, pyUpperChar p.2 = p.2 := by decide
  cases h : asciiCasePairs.find? (fun p => p.1 = c) with
  | none =>
    have hc : pyUpperChar c = c := by rw [pyUpperChar, h]
    rw [hc, hc]
  | some p =>
    have hc : pyUpperChar c = p.2 := by rw [pyUpperChar, h]
    rw [hc]
    exact hall p (List.mem_of_find?_eq_some h)

/-- Characters of the merchant-alias replacement names are fixed by
`pyUpperChar`. -/
theorem aliasVals_upperFixed :
    ∀ p ∈ merchantAliases, ∀ c ∈ p.2.data, pyUpperChar c = c := by
  decide

/-- Every character of a normalized name is a space or a word character
that is neither a digit nor a lowercase letter. -/
theorem normalizeName_chars (s : List Char) :
    ∀ c ∈ normalizeNameL s,
      (c = ' ' ∨ (pyIsWord c = true ∧ c.isDigit = false)) ∧
        pyUpperChar c = c := by
  intro c hc
  rw [normalizeNameL] at hc
  split at hc
  · simp at hc
  · rcases mem_collapseL hc with h | ⟨hmem, hns⟩
    · exact ⟨Or.inl h, by subst h; decide⟩
    · have hmem := suffixStep_subset _ (stripLeadTok_subset _ _ hmem)
      rw [List.mem_map] at hmem
      obtain ⟨d, hd, hdc⟩ := hmem
      have hup : pyUpperChar d = d := by
        rw [aliasApply] at hd
        revert hd
        split
        · rename_i p hfind
          intro hd
          exact aliasVals_upperFixed p (List.mem_of_find?_eq_some hfind) d hd
        · intro hd
          have hd := pyStripL_subset _ hd
          rw [pyUpperL, List.mem_map] at hd
          obtain ⟨e, _, he⟩ := hd
          rw [← he]
          exact pyUpperChar_idem e
      by_cases h1 : (d.isDigit || d = '#' || d = '*') = true
      · rw [← hdc, cleanChar1, if_pos h1] at hns ⊢
        simp [cleanChar2, pyIsWord, pyIsSpace] at hns
      · rw [← hdc, cleanChar1, if_neg h1] at hns ⊢
        by_cases h2 : (pyIsWord d || pyIsSpace d) = true
        · rw [cleanChar2, if_pos h2] at hns ⊢
          rcases Bool.or_eq_true_iff.mp h2 with h2 | h2
          · refine ⟨Or.inr ⟨h2, ?_⟩, hup⟩
            simp only [Bool.or_eq_true] at h1
            push_neg at h1
            simpa using h1.1.1
          · rw [h2] at hns; simp at hns
        · rw [cleanChar2, if_neg h2] at hns
          simp [pyIsSpace] at hns

/-- A normalized name is empty or a collapsed string. -/
theorem normalizeNameL_shape (s : List Char) :
    normalizeNameL s = [] ∨ ∃ x, normalizeNameL s = collapseL x := by
  rw [normalizeNameL]
  split
  · exact Or.inl rfl
  · exact Or.inr ⟨_, rfl⟩

/-- Claim C3 (amended): `_normalize_name` is idempotent on every input
whose normalized form is left unchanged by the merchant-alias lookup, by
the business-suffix removal loop, and by the leading-prefix-token strip.
(As stated, the claim is false: the prefix strip removes only one leading
token per call and can also expose a new alias key or suffix word — see
the counterexample theorem.)  The remaining stages — upper-casing,
stripping, the character-class substitutions and whitespace collapsing —
always fix a normalized name, which is the content of this theorem. -/
theorem normalize_name_conditionally_idem (s : List Char)
    (h₁ : aliasApply (normalizeNameL s) = normalizeNameL s)
    (h₂ : suffixStep (normalizeNameL s) = normalizeNameL s)
    (h₃ : stripLeadTok normLeadToks (normalizeNameL s) = normalizeNameL s) :
    normalizeNameL (normalizeNameL s) = normalizeNameL s := by
  rcases normalizeNameL_shape s with h0 | ⟨x, hx⟩
  · rw [h0]; rfl
  · by_cases hne : (normalizeNameL s).isEmpty
    · have h0 : normalizeNameL s = [] := by
        cases hl : normalizeNameL s with
        | nil => rfl
        | cons a b => rw [hl] at hne; simp at hne
      rw [h0]; rfl
    · have hup : pyUpperL (normalizeNameL s) = normalizeNameL s :=
        map_eq_self_of_mem (fun c hc => (normalizeName_chars s c hc).2)
      have hstrip : pyStripL (normalizeNameL s) = normalizeNameL s := by
        rw [hx]; exact pyStripL_collapseL x
      have hclean : (normalizeNameL s).map (fun c => cleanChar2 (cleanChar1 c))
          = normalizeNameL s := by
        refine map_eq_self_of_mem (fun c hc => ?_)
        rcases (normalizeName_chars s c hc).1 with h | ⟨hw, hd⟩
        · subst h; decide
        · have hno : ¬(c.isDigit || c = '#' || c = '*') = true := by
            intro hcon
            rcases Bool.or_eq_true_iff.mp hcon with hcon | hcon
            · rcases Bool.or_eq_true_iff.mp hcon with hcon | hcon
              · rw [hcon] at hd; simp at hd
              · rw [of_decide_eq_true hcon] at hw; exact absurd hw (by decide)
            · rw [of_decide_eq_true hcon] at hw; exact absurd hw (by decide)
          rw [cleanChar1, if_neg hno, cleanChar2, if_pos (by rw [hw]; rfl)]
      rw [normalizeNameL, if_neg (by simpa using hne)]
      show collapseL (stripLeadTok normLeadToks (suffixStep
        ((aliasApply (pyStripL (pyUpperL (normalizeNameL s)))).map
          (fun c => cleanChar2 (cleanChar1 c))))) = normalizeNameL s
      rw [hup, hstrip, h₁, hclean, h₂, h₃, hx, collapseL_idem]

set_option maxRecDepth 40000 in
/-- Witness for the amended claim C3 at a concrete input: the normalized
form of `"JOHN DOE"` satisfies the three side conditions and normalizing
twice equals normalizing once. -/
theorem normalize_name_conditionally_idem_witness :
    aliasApply (normalizeNameL "JOHN DOE".data) = normalizeNameL "JOHN DOE".data ∧
    suffixStep (normalizeNameL "JOHN DOE".data) = normalizeNameL "JOHN DOE".data ∧
    stripLeadTok normLeadToks (normalizeNameL "JOHN DOE".data) =
      normalizeNameL "JOHN DOE".data ∧
    normalizeNameL (normalizeNameL "JOHN DOE".data) =
      normalizeNameL "JOHN DOE".data :=
  ⟨by decide, by decide, by decide,
    normalize_name_conditionally_idem _ (by decide) (by decide) (by decide)⟩

set_option maxRecDepth 40000 in
/-- Counterexample to claim C3 as stated: `_normalize_name("ATAT")` strips
the leading prefix token `AT` once, producing `"AT"`, which itself still
begins with the prefix token `AT`; a second application therefore returns
`""`.  So `_normalize_name` is not idempotent. -/
theorem normalize_name_not_idempotent :
    normalizeName "ATAT" = "AT" ∧ normalizeName "AT" = "" ∧
      normalizeName (normalizeName "ATAT") ≠ normalizeName "ATAT" :=
  ⟨by decide, by decide, by decide⟩

/-! ### Claims C2 and C7: `extract_entity` -/

/-- Appending a fresh key makes it found. -/
theorem lookupE_append_self :
    ∀ (st : NState) (k : String) (e : NEntity), lookupE st k = none →
      lookupE (st ++ [(k, e)]) k = some e := by
  intro st k e h
  induction st with
  | nil => simp [lookupE]
  | cons p rest ih =>
    rw [lookupE] at h
    rw [List.cons_append, lookupE]
    split at h
    · exact absurd h (by simp)
    · rename_i hne
      rw [if_neg hne]
      exact ih h

/-- Updating an existing key makes the new row found. -/
theorem lookupE_updateKey_self :
    ∀ (st : NState) (k : String) (e₀ e : NEntity), lookupE st k = some e₀ →
      lookupE (updateKey st k e) k = some e := by
  intro st k e₀ e h
  induction st with
  | nil => simp [lookupE] at h
  | cons p rest ih =>
    rcases p with ⟨k₁, e₁⟩
    rw [lookupE] at h
    rw [updateKey]
    split at h
    · rename_i heq
      rw [if_pos heq, lookupE, if_pos heq]
    · rename_i hne
      rw [if_neg hne, lookupE, if_neg hne]
      exact ih h

/-- `_register_entity` leaves the registered key present with its
transaction count incremented. -/
theorem registerEntity_lookup (st : NState) (normalized original etype : String)
    (amount : ℚ) (isCredit : Bool) :
    ∃ e, lookupE (registerEntity st normalized original etype amount isCredit)
        normalized = some e ∧
      e.txCount = (match lookupE st normalized with
        | some e₀ => e₀.txCount
        | none => 0) + 1 := by
  cases h : lookupE st normalized with
  | none =>
    simp only [registerEntity, h]
    exact ⟨_, lookupE_append_self st normalized _ h,
      by simp [bumpedEntity, freshEntity]⟩
  | some e₀ =>
    simp only [registerEntity, h]
    exact ⟨_, lookupE_updateKey_self st normalized e₀ _ h,
      by simp [bumpedEntity]⟩

/-- Step 5 either leaves the state unchanged and returns `none`, or
returns a key it has just registered. -/
theorem extractEntityStep5_spec (st : NState) (d : List Char) (a : ℚ)
    (c : Bool) :
    extractEntityStep5 st d a c = (none, st) ∨
    ∃ key orig ty, extractEntityStep5 st d a c =
      (some key, registerEntity st key orig ty a c) := by
  cases h : salvageWords step5TransactionWords d with
  | none => left; rw [extractEntityStep5, h]
  | some cand₀ =>
    by_cases h₂ : 2 ≤ (normalizeNameL cand₀).length
    · right
      refine ⟨⟨normalizeNameL cand₀⟩, ⟨normalizeNameL cand₀⟩, "General", ?_⟩
      rw [extractEntityStep5, h]
      simp only [if_pos h₂]
    · left
      rw [extractEntityStep5, h]
      simp only [if_neg h₂]

/-- Steps 4–5 either leave the state unchanged and return `none`, or
return a key they have just registered. -/
theorem extractEntitySteps45_spec (st : NState) (d : List Char) (a : ℚ)
    (c : Bool) :
    extractEntitySteps45 st d a c = (none, st) ∨
    ∃ key orig ty, extractEntitySteps45 st d a c =
      (some key, registerEntity st key orig ty a c) := by
  cases h : extractPartyAdvanced d with
  | none =>
    rw [extractEntitySteps45, h]
    exact extractEntityStep5_spec st d a c
  | some ent =>
    by_cases h₂ : normalizeNameL ent ≠ [] ∧ 2 ≤ (normalizeNameL ent).length
    · right
      refine ⟨⟨normalizeNameL ent⟩, ⟨ent⟩, "General", ?_⟩
      rw [extractEntitySteps45, h]
      simp only [if_pos h₂]
    · rw [extractEntitySteps45, h]
      simp only [if_neg h₂]
      exact extractEntityStep5_spec st d a c

/-- `extract_entity` either leaves the state unchanged and returns `none`,
or returns a key it has just registered (with some original name and
entity type). -/
theorem extractEntity_spec (st : NState) (description : String) (a : ℚ)
    (c : Bool) :
    extractEntity st description a c = (none, st) ∨
    ∃ key orig ty, extractEntity st description a c =
      (some key, registerEntity st key orig ty a c) := by
  by_cases hd : description = ""
  · left; rw [extractEntity, if_pos hd]
  · rw [extractEntity, if_neg hd]
    simp only []
    cases hf : (if interestHit (pyStripL (pyUpperL description.data)) then
        some ("INTEREST INCOME".data, "Income")
      else scanGroups (pyStripL (pyUpperL description.data))
        enPatternGroups) with
    | none => exact extractEntitySteps45_spec st _ a c
    | some p =>
      rcases p with ⟨ent, ty⟩
      by_cases h₂ : normalizeNameL ent ≠ [] ∧ 2 ≤ (normalizeNameL ent).length
      · right
        refine ⟨⟨normalizeNameL ent⟩, ⟨ent⟩, ty, ?_⟩
        simp only [if_pos h₂]
      · simp only [if_neg h₂]
        exact extractEntitySteps45_spec st _ a c

/-- Claim C2 (amended): whenever `extract_entity` returns a party name
(rather than `None`), that name has been registered: it is a key of the
entities table afterwards and its `transaction_count` is the prior count
plus one.  The claim's guarantee that every non-empty description
registers some party is false — see the counterexample theorem. -/
theorem extract_entity_registers_returned_party (st : NState)
    (description : String) (amount : ℚ) (isCredit : Bool) (n : String)
    (h : (extractEntity st description amount isCredit).1 = some n) :
    ∃ e, lookupE (extractEntity st description amount isCredit).2 n =
        some e ∧
      e.txCount = (match lookupE st n with
        | some e₀ => e₀.txCount
        | none => 0) + 1 := by
  rcases extractEntity_spec st description amount isCredit with
    hspec | ⟨key, orig, ty, hspec⟩
  · rw [hspec] at h; simp at h
  · rw [hspec] at h ⊢
    simp only [Option.some.injEq] at h
    subst h
    exact registerEntity_lookup st _ orig ty amount isCredit

set_option maxRecDepth 1000000 in
/-- Witness for the amended claim C2 at a concrete input: on
`"PAYMENT TO JOHN"` the cascade returns `"JOHN"`, which is present with
count 1 in the (initially empty) table. -/
theorem extract_entity_registers_returned_party_witness :
    (extractEntity [] "PAYMENT TO JOHN" 100 true).1 = some "JOHN" ∧
    ∃ e, lookupE (extractEntity [] "PAYMENT TO JOHN" 100 true).2 "JOHN" =
        some e ∧
      e.txCount = (match lookupE ([] : NState) "JOHN" with
        | some e₀ => e₀.txCount
        | none => 0) + 1 :=
  ⟨by decide,
    extract_entity_registers_returned_party [] "PAYMENT TO JOHN" 100 true
      "JOHN" (by decide)⟩

set_option maxRecDepth 1000000 in
/-- Counterexample to claim C2 as stated: the description `"AB"` is
non-empty, yet no cascade stage finds a party (the final salvage keeps
only words longer than two characters), so `extract_entity` returns
`None` and registers nothing. -/
theorem extract_entity_salvage_counterexample :
    extractEntity [] "AB" 100 true = (none, []) := by
  decide

set_option maxRecDepth 1000000 in
/-- Claim C7: `"PAYMENT TO RAHUL ENTERPRISES"` and
`"PAYMENT TO RAHUL ENTP"` both normalize to the key `"RAHUL"` (the
business suffixes `ENTERPRISES` and `ENTP` are both stripped), so the two
registrations land on one entity with `transaction_count = 2`, without any
similarity merge. -/
theorem rahul_entp_same_entity :
    (extractEntity [] "PAYMENT TO RAHUL ENTERPRISES" 500 true).1 =
      some "RAHUL" ∧
    (extractEntity (extractEntity [] "PAYMENT TO RAHUL ENTERPRISES"
        500 true).2 "PAYMENT TO RAHUL ENTP" 300 false).1 = some "RAHUL" ∧
    (extractEntity (extractEntity [] "PAYMENT TO RAHUL ENTERPRISES"
        500 true).2 "PAYMENT TO RAHUL ENTP" 300 false).2.map Prod.fst =
      ["RAHUL"] ∧
    (lookupE (extractEntity (extractEntity []
        "PAYMENT TO RAHUL ENTERPRISES" 500 true).2
        "PAYMENT TO RAHUL ENTP" 300 false).2 "RAHUL").map NEntity.txCount =
      some 2 := by
  refine ⟨by decide, by decide, by decide, by decide⟩

/-! ### Claims C5 and C9: entity table invariants -/

/-- A key is absent exactly when lookup fails. -/
theorem lookupE_none_iff :
    ∀ (st : NState) (k : String), lookupE st k = none ↔ k ∉ keysOf st := by
  intro st k
  induction st with
  | nil => simp [lookupE, keysOf]
  | cons p rest ih =>
    rcases p with ⟨k₁, e₁⟩
    rw [lookupE]
    by_cases h : k₁ = k
    · subst h
      simp [keysOf]
    · rw [if_neg h, ih]
      simp only [keysOf, List.map_cons, List.mem_cons, not_or]
      exact ⟨fun hk => ⟨fun hc => h hc.symm, hk⟩, fun hk => hk.2⟩

/-- Lookup returns an actual table row. -/
theorem lookupE_mem :
    ∀ (st : NState) (k : String) (e : NEntity), lookupE st k = some e →
      (k, e) ∈ st := by
  intro st k e h
  induction st with
  | nil => simp [lookupE] at h
  | cons p rest ih =>
    rcases p with ⟨k₁, e₁⟩
    rw [lookupE] at h
    split at h
    · rename_i heq
      subst heq
      simp only [Option.some.injEq] at h
      subst h
      exact List.mem_cons_self ..
    · exact List.mem_cons_of_mem _ (ih h)

/-- Updating a key does not change the key list. -/
theorem keysOf_updateKey :
    ∀ (st : NState) (k : String) (e : NEntity),
      keysOf (updateKey st k e) = keysOf st := by
  intro st k e
  induction st with
  | nil => rfl
  | cons p rest ih =>
    rcases p with ⟨k₁, e₁⟩
    rw [updateKey]
    split
    · rename_i heq
      simp [keysOf, heq]
    · simp only [keysOf, List.map_cons]
      rw [show List.map Prod.fst (updateKey rest k e) =
        List.map Prod.fst rest from ih]

/-- Rows after an update are the new row or original rows. -/
theorem mem_updateKey :
    ∀ (st : NState) (k : String) (e : NEntity) (p : String × NEntity),
      p ∈ updateKey st k e → p = (k, e) ∨ p ∈ st := by
  intro st k e p hp
  induction st with
  | nil => simp [updateKey] at hp
  | cons q rest ih =>
    rcases q with ⟨k₁, e₁⟩
    rw [updateKey] at hp
    split at hp
    · rename_i heq
      rcases List.mem_cons.mp hp with h | h
      · subst heq; exact Or.inl h
      · exact Or.inr (List.mem_cons_of_mem _ h)
    · rcases List.mem_cons.mp hp with h | h
      · exact Or.inr (h ▸ List.mem_cons_self ..)
      · rcases ih h with h | h
        · exact Or.inl h
        · exact Or.inr (List.mem_cons_of_mem _ h)

/-- Updating one key leaves lookups of other keys unchanged. -/
theorem lookupE_updateKey_ne :
    ∀ (st : NState) (k₂ k : String) (e : NEntity), k₂ ≠ k →
      lookupE (updateKey st k₂ e) k = lookupE st k := by
  intro st k₂ k e hne
  induction st with
  | nil => rfl
  | cons p rest ih =>
    rcases p with ⟨k₁, e₁⟩
    rw [updateKey]
    split
    · rename_i heq
      subst heq
      rw [lookupE, lookupE, if_neg hne, if_neg hne]
    · rw [lookupE, lookupE]
      split
      · rfl
      · exact ih

/-- Appending a fresh key leaves lookups of other keys unchanged. -/
theorem lookupE_append_ne :
    ∀ (st : NState) (k₂ k : String) (e : NEntity), k₂ ≠ k →
      lookupE (st ++ [(k₂, e)]) k = lookupE st k := by
  intro st k₂ k e hne
  induction st with
  | nil => simp [lookupE, if_neg hne]
  | cons p rest ih =>
    rcases p with ⟨k₁, e₁⟩
    rw [List.cons_append, lookupE, lookupE]
    split
    · rfl
    · exact ih

/-- Removing a key filters the key list. -/
theorem keysOf_removeKey :
    ∀ (st : NState) (k : String),
      keysOf (removeKey st k) = (keysOf st).filter (fun x => x != k) := by
  intro st k
  induction st with
  | nil => rfl
  | cons p rest ih =>
    rcases p with ⟨k₁, e₁⟩
    rw [removeKey, List.filter_cons]
    by_cases h : (k₁ != k) = true
    · rw [if_pos h]
      simp only [keysOf, List.map_cons, List.filter_cons]
      rw [if_pos h]
      exact congrArg (k₁ :: ·) ih
    · rw [if_neg h]
      simp only [keysOf, List.map_cons, List.filter_cons]
      rw [if_neg h]
      exact ih

/-- Rows survive removal only from the original table. -/
theorem mem_removeKey :
    ∀ (st : NState) (k : String) (p : String × NEntity),
      p ∈ removeKey st k → p ∈ st := by
  intro st k p hp
  exact List.mem_of_mem_filter hp

/-- Removing one key leaves lookups of other keys unchanged. -/
theorem lookupE_removeKey_ne :
    ∀ (st : NState) (k₂ k : String), k ≠ k₂ →
      lookupE (removeKey st k₂) k = lookupE st k := by
  intro st k₂ k hne
  induction st with
  | nil => rfl
  | cons p rest ih =>
    rcases p with ⟨k₁, e₁⟩
    rw [removeKey, List.filter_cons]
    by_cases h : (k₁ != k₂) = true
    · rw [if_pos h, lookupE, lookupE]
      split
      · rfl
      · exact ih
    · rw [if_neg h, lookupE]
      have hk₁ : k₁ = k₂ := by
        simpa using h
      rw [if_neg (by rw [hk₁]; exact fun hc => hne hc.symm)]
      exact ih

/-- Removing an absent key is a no-op. -/
theorem removeKey_eq_self :
    ∀ (st : NState) (k : String), k ∉ keysOf st → removeKey st k = st := by
  intro st k h
  induction st with
  | nil => rfl
  | cons p rest ih =>
    rcases p with ⟨k₁, e₁⟩
    simp only [keysOf, List.map_cons, List.mem_cons, not_or] at h
    rw [removeKey, List.filter_cons]
    rw [if_pos (show (k₁ != k) = true by
      simp only [bne_iff_ne, ne_eq]
      exact fun hc => h.1 hc.symm)]
    rw [show List.filter (fun p => p.1 != k) rest = rest from
      ih (by simpa [keysOf] using h.2)]

/-- Field-sum change under an update. -/
theorem sumF_updateKey {M : Type} [AddCommMonoid M] (f : NEntity → M) :
    ∀ (st : NState) (k : String) (e₀ e : NEntity),
      lookupE st k = some e₀ →
      sumF f (updateKey st k e) + f e₀ = sumF f st + f e := by
  intro st k e₀ e h
  induction st with
  | nil => simp [lookupE] at h
  | cons p rest ih =>
    rcases p with ⟨k₁, e₁⟩
    rw [lookupE] at h
    rw [updateKey]
    split at h
    · rename_i heq
      simp only [Option.some.injEq] at h
      subst h
      rw [if_pos heq]
      simp only [sumF, List.map_cons, List.sum_cons]
      abel
    · rename_i hne
      rw [if_neg hne]
      simp only [sumF, List.map_cons, List.sum_cons]
      have := ih h
      simp only [sumF] at this
      rw [add_assoc, this]
      abel

/-- Field-sum change under an append. -/
theorem sumF_append {M : Type} [AddCommMonoid M] (f : NEntity → M)
    (st : NState) (k : String) (e : NEntity) :
    sumF f (st ++ [(k, e)]) = sumF f st + f e := by
  simp [sumF]

/-- Field-sum change under a removal (distinct keys). -/
theorem sumF_removeKey {M : Type} [AddCommMonoid M] (f : NEntity → M) :
    ∀ (st : NState) (k : String) (e : NEntity), nodupKeys st →
      lookupE st k = some e →
      sumF f (removeKey st k) + f e = sumF f st := by
  intro st k e hnd h
  induction st with
  | nil => simp [lookupE] at h
  | cons p rest ih =>
    rcases p with ⟨k₁, e₁⟩
    rw [lookupE] at h
    rw [removeKey, List.filter_cons]
    split at h
    · rename_i heq
      simp only [Option.some.injEq] at h
      subst h
      subst heq
      rw [if_neg (by simp)]
      have hnotin : k₁ ∉ keysOf rest := by
        simpa [nodupKeys, keysOf] using (List.nodup_cons.mp hnd).1
      rw [show List.filter (fun p => p.1 != k₁) rest = rest from
        removeKey_eq_self rest k₁ hnotin]
      simp only [sumF, List.map_cons, List.sum_cons]
      exact add_comm _ _
    · rename_i hne
      rw [if_pos (show (k₁ != k) = true by
        simp only [bne_iff_ne, ne_eq]
        exact hne)]
      simp only [sumF, List.map_cons, List.sum_cons]
      have hnd₂ : nodupKeys rest := by
        simpa [nodupKeys, keysOf] using (List.nodup_cons.mp hnd).2
      have := ih hnd₂ h
      simp only [sumF, removeKey] at this
      rw [add_assoc, this]

/-- Key list after a registration: unchanged for a known key, extended by
the new key otherwise. -/
theorem registerEntity_keys (st : NState) (k o t : String) (a : ℚ)
    (c : Bool) :
    keysOf (registerEntity st k o t a c) = keysOf st ∨
    (lookupE st k = none ∧
      keysOf (registerEntity st k o t a c) = keysOf st ++ [k]) := by
  cases h : lookupE st k with
  | some e =>
    left
    simp only [registerEntity, h]
    exact keysOf_updateKey st k _
  | none =>
    right
    refine ⟨rfl, ?_⟩
    simp only [registerEntity, h]
    simp [keysOf]

/-- Registration preserves key distinctness. -/
theorem registerEntity_nodup (st : NState) (k o t : String) (a : ℚ)
    (c : Bool) (hnd : nodupKeys st) :
    nodupKeys (registerEntity st k o t a c) := by
  rcases registerEntity_keys st k o t a c with h | ⟨hnone, h⟩
  · rw [nodupKeys, h]; exact hnd
  · rw [nodupKeys, h]
    have hk : k ∉ keysOf st := (lookupE_none_iff st k).mp hnone
    refine List.Nodup.append hnd (List.nodup_singleton k) ?_
    intro x hx hc
    simp only [List.mem_singleton] at hc
    subst hc
    exact hk hx

/-- Registration adds one to the total transaction count. -/
theorem registerEntity_sumTx (st : NState) (k o t : String) (a : ℚ)
    (c : Bool) :
    sumTx (registerEntity st k o t a c) = sumTx st + 1 := by
  cases h : lookupE st k with
  | none =>
    simp only [registerEntity, h, sumTx, sumF_append]
    simp [bumpedEntity, freshEntity]
  | some e₀ =>
    have h₂ := sumF_updateKey (M := ℕ) NEntity.txCount st k e₀
      (bumpedEntity e₀ o a c) h
    rw [show (bumpedEntity e₀ o a c).txCount = e₀.txCount + 1 from rfl] at h₂
    simp only [registerEntity, h, sumTx]
    simp only [sumF] at h₂ ⊢
    omega

/-- Per-key transaction count after a registration. -/
theorem registerEntity_txCountFor (st : NState) (k₂ k o t : String) (a : ℚ)
    (c : Bool) :
    txCountFor (registerEntity st k₂ o t a c) k =
      txCountFor st k + (if k₂ = k then 1 else 0) := by
  by_cases hk : k₂ = k
  · subst hk
    rw [if_pos rfl]
    obtain ⟨e, he, hc⟩ := registerEntity_lookup st k₂ o t a c
    rw [txCountFor, he]
    simp only []
    rw [hc]
    rfl
  · rw [if_neg hk, add_zero]
    cases h : lookupE st k₂ with
    | some e₀ =>
      simp only [registerEntity, h, txCountFor]
      rw [lookupE_updateKey_ne st k₂ k _ hk]
    | none =>
      simp only [registerEntity, h, txCountFor]
      rw [lookupE_append_ne st k₂ k _ hk]

/-- Registration preserves the nonnegative-totals invariant. -/
theorem registerEntity_nonneg (st : NState) (k o t : String) (a : ℚ)
    (c : Bool) (hnn : nonnegState st) :
    nonnegState (registerEntity st k o t a c) := by
  have hbump : ∀ base : NEntity, 0 ≤ base.totalCredit →
      0 ≤ base.totalDebit →
      0 ≤ (bumpedEntity base o a c).totalCredit ∧
        0 ≤ (bumpedEntity base o a c).totalDebit := by
    intro base hc hd
    constructor
    · simp only [bumpedEntity]
      have : (0 : ℚ) ≤ (if c then |a| else 0) := by
        split
        · exact abs_nonneg a
        · exact le_refl 0
      linarith
    · simp only [bumpedEntity]
      have : (0 : ℚ) ≤ (if c then 0 else |a|) := by
        split
        · exact le_refl 0
        · exact abs_nonneg a
      linarith
  intro p hp
  cases h : lookupE st k with
  | some e₀ =>
    rw [registerEntity, h] at hp
    rcases mem_updateKey _ _ _ _ hp with hpe | hpe
    · subst hpe
      have he₀ := hnn _ (lookupE_mem st k e₀ h)
      exact hbump e₀ he₀.1 he₀.2
    · exact hnn p hpe
  | none =>
    rw [registerEntity, h] at hp
    rcases List.mem_append.mp hp with hpe | hpe
    · exact hnn p hpe
    · simp only [List.mem_singleton] at hpe
      subst hpe
      exact hbump (freshEntity o t) (le_refl 0) (le_refl 0)

/-- `merge_entities` either leaves the table unchanged or replaces two
distinct existing rows by their fold. -/
theorem mergeEntities_cases (st : NState) (a b : String) :
    (mergeEntities st a b).2 = st ∨
    ∃ n₁ n₂ e₁ e₂, lookupE st n₁ = some e₁ ∧ lookupE st n₂ = some e₂ ∧
      n₁ ≠ n₂ ∧ (mergeEntities st a b).2 =
        updateKey (removeKey st n₂) n₁ (mergedEntity e₁ e₂) := by
  rw [mergeEntities]
  cases h₁ : lookupE st (normalizeName a) with
  | none => left; rfl
  | some e₁ =>
    cases h₂ : lookupE st (normalizeName b) with
    | none => left; rfl
    | some e₂ =>
      by_cases heq : normalizeName a = normalizeName b
      · left
        simp only []
        rw [if_pos heq]
      · right
        exact ⟨_, _, e₁, e₂, h₁, h₂, heq, by
          simp only []
          rw [if_neg heq]⟩

/-- Key list of the merged table: the second key is removed, nothing else
changes. -/
theorem mergeState_keys (st : NState) (n₁ n₂ : String) (e₁ e₂ : NEntity) :
    keysOf (updateKey (removeKey st n₂) n₁ (mergedEntity e₁ e₂)) =
      (keysOf st).filter (fun x => x != n₂) := by
  rw [keysOf_updateKey, keysOf_removeKey]

/-- Merging preserves key distinctness. -/
theorem mergeState_nodup (st : NState) (n₁ n₂ : String) (e₁ e₂ : NEntity)
    (hnd : nodupKeys st) :
    nodupKeys (updateKey (removeKey st n₂) n₁ (mergedEntity e₁ e₂)) := by
  rw [nodupKeys, mergeState_keys]
  exact List.Nodup.filter _ hnd

/-- Merging preserves any additive field sum. -/
theorem mergeState_sumF {M : Type} [AddCancelCommMonoid M]
    (f : NEntity → M) (st : NState) (n₁ n₂ : String) (e₁ e₂ : NEntity)
    (hnd : nodupKeys st) (h₁ : lookupE st n₁ = some e₁)
    (h₂ : lookupE st n₂ = some e₂) (hne : n₁ ≠ n₂)
    (hf : f (mergedEntity e₁ e₂) = f e₁ + f e₂) :
    sumF f (updateKey (removeKey st n₂) n₁ (mergedEntity e₁ e₂)) =
      sumF f st := by
  have h₁r : lookupE (removeKey st n₂) n₁ = some e₁ := by
    rw [lookupE_removeKey_ne st n₂ n₁ hne]
    exact h₁
  have ha := sumF_updateKey f (removeKey st n₂) n₁ e₁ (mergedEntity e₁ e₂)
    h₁r
  have hb := sumF_removeKey f st n₂ e₂ hnd h₂
  have hkey : sumF f (updateKey (removeKey st n₂) n₁ (mergedEntity e₁ e₂))
      + f e₁ = sumF f st + f e₁ := by
    rw [ha, hf, ← hb]
    abel
  exact add_right_cancel hkey

/-- Merging preserves the nonnegative-totals invariant. -/
theorem mergeState_nonneg (st : NState) (n₁ n₂ : String) (e₁ e₂ : NEntity)
    (h₁ : lookupE st n₁ = some e₁) (h₂ : lookupE st n₂ = some e₂)
    (hnn : nonnegState st) :
    nonnegState (updateKey (removeKey st n₂) n₁ (mergedEntity e₁ e₂)) := by
  intro p hp
  rcases mem_updateKey _ _ _ _ hp with hpe | hpe
  · subst hpe
    have he₁ := hnn _ (lookupE_mem st n₁ e₁ h₁)
    have he₂ := hnn _ (lookupE_mem st n₂ e₂ h₂)
    constructor
    · simp only [mergedEntity]
      have := he₁.1
      have := he₂.1
      linarith
    · simp only [mergedEntity]
      have := he₁.2
      have := he₂.2
      linarith
  · exact hnn p (mem_removeKey _ _ _ hpe)

theorem applyNOp_reg (st : NState) (k o t : String) (a : ℚ) (c : Bool) :
    applyNOp st (.reg k o t a c) = registerEntity st k o t a c := rfl

theorem applyNOp_ext (st : NState) (d : String) (a : ℚ) (c : Bool) :
    applyNOp st (.ext d a c) = (extractEntity st d a c).2 := rfl

theorem applyNOp_mrg (st : NState) (x y : String) :
    applyNOp st (.mrg x y) = (mergeEntities st x y).2 := rfl

theorem opRegCount_reg (st : NState) (k o t : String) (a : ℚ) (c : Bool) :
    opRegCount st (.reg k o t a c) = 1 := rfl

theorem opRegCount_ext_none (st : NState) (d : String) (a : ℚ) (c : Bool)
    (hn : (extractEntity st d a c).1 = none) :
    opRegCount st (.ext d a c) = 0 := by
  have h : opRegCount st (.ext d a c) =
      (match (extractEntity st d a c).1 with
        | some _ => 1 | none => 0) := rfl
  rw [h, hn]

theorem opRegCount_ext_some (st : NState) (d key : String) (a : ℚ)
    (c : Bool) (hs : (extractEntity st d a c).1 = some key) :
    opRegCount st (.ext d a c) = 1 := by
  have h : opRegCount st (.ext d a c) =
      (match (extractEntity st d a c).1 with
        | some _ => 1 | none => 0) := rfl
  rw [h, hs]

theorem opRegCount_mrg (st : NState) (x y : String) :
    opRegCount st (.mrg x y) = 0 := rfl

theorem opRegKey_reg (st : NState) (k k₂ o t : String) (a : ℚ) (c : Bool) :
    opRegKey st k (.reg k₂ o t a c) = if k₂ = k then 1 else 0 := rfl

theorem opRegKey_ext_none (st : NState) (k d : String) (a : ℚ) (c : Bool)
    (hn : (extractEntity st d a c).1 = none) :
    opRegKey st k (.ext d a c) = 0 := by
  have h : opRegKey st k (.ext d a c) =
      (match (extractEntity st d a c).1 with
        | some k₂ => if k₂ = k then 1 else 0 | none => 0) := rfl
  rw [h, hn]

theorem opRegKey_ext_some (st : NState) (k d key : String) (a : ℚ)
    (c : Bool) (hs : (extractEntity st d a c).1 = some key) :
    opRegKey st k (.ext d a c) = if key = k then 1 else 0 := by
  have h : opRegKey st k (.ext d a c) =
      (match (extractEntity st d a c).1 with
        | some k₂ => if k₂ = k then 1 else 0 | none => 0) := rfl
  rw [h, hs]

theorem opRegKey_mrg (st : NState) (k x y : String) :
    opRegKey st k (.mrg x y) = 0 := rfl

theorem runOps_cons (st : NState) (op : NOp) (ops : List NOp) :
    runOps st (op :: ops) = runOps (applyNOp st op) ops := rfl

theorem regsDone_cons (st : NState) (op : NOp) (ops : List NOp) :
    regsDone st (op :: ops) =
      opRegCount st op + regsDone (applyNOp st op) ops := rfl

theorem regsForKey_cons (st : NState) (op : NOp) (ops : List NOp)
    (k : String) :
    regsForKey st (op :: ops) k =
      opRegKey st k op + regsForKey (applyNOp st op) ops k := rfl

set_option maxHeartbeats 1000000 in
/-- Invariant propagation over any call sequence: keys stay distinct,
totals stay nonnegative, the transaction-count sum equals the prior sum
plus the number of `_register_entity` invocations performed, and — when no
merge occurs — each key's count grows by exactly its own registrations. -/
theorem runOps_invariant :
    ∀ (ops : List NOp) (st : NState), nodupKeys st → nonnegState st →
      nodupKeys (runOps st ops) ∧ nonnegState (runOps st ops) ∧
      sumTx (runOps st ops) = sumTx st + regsDone st ops ∧
      (noMergeOps ops = true → ∀ k,
        txCountFor (runOps st ops) k = txCountFor st k +
          regsForKey st ops k) := by
  intro ops
  induction ops with
  | nil =>
    intro st hnd hnn
    exact ⟨hnd, hnn, by simp [runOps, regsDone],
      fun _ k => by simp [runOps, regsForKey]⟩
  | cons op ops ih =>
    intro st hnd hnn
    have hstep : nodupKeys (applyNOp st op) ∧ nonnegState (applyNOp st op) ∧
        sumTx (applyNOp st op) = sumTx st + opRegCount st op ∧
        ((∀ x y, op ≠ .mrg x y) → ∀ k,
          txCountFor (applyNOp st op) k = txCountFor st k +
            opRegKey st k op) := by
      cases op with
      | reg k o t a c =>
        rw [applyNOp_reg, opRegCount_reg]
        refine ⟨registerEntity_nodup st k o t a c hnd,
          registerEntity_nonneg st k o t a c hnn,
          registerEntity_sumTx st k o t a c, ?_⟩
        intro _ k₂
        rw [opRegKey_reg]
        exact registerEntity_txCountFor st k k₂ o t a c
      | ext d a c =>
        rcases extractEntity_spec st d a c with hsp | ⟨key, orig, ty, hsp⟩
        · have hn : (extractEntity st d a c).1 = none := by rw [hsp]
          have hst : applyNOp st (.ext d a c) = st := by
            rw [applyNOp_ext, hsp]
          rw [hst, opRegCount_ext_none st d a c hn]
          refine ⟨hnd, hnn, by rw [Nat.add_zero], ?_⟩
          intro _ k₂
          rw [opRegKey_ext_none st k₂ d a c hn, Nat.add_zero]
        · have hs : (extractEntity st d a c).1 = some key := by rw [hsp]
          have hst : applyNOp st (.ext d a c) =
              registerEntity st key orig ty a c := by
            rw [applyNOp_ext, hsp]
          rw [hst, opRegCount_ext_some st d key a c hs]
          refine ⟨registerEntity_nodup st key orig ty a c hnd,
            registerEntity_nonneg st key orig ty a c hnn,
            registerEntity_sumTx st key orig ty a c, ?_⟩
          intro _ k₂
          rw [opRegKey_ext_some st k₂ d key a c hs]
          exact registerEntity_txCountFor st key k₂ orig ty a c
      | mrg x y =>
        rw [applyNOp_mrg, opRegCount_mrg, Nat.add_zero]
        rcases mergeEntities_cases st x y with hsp |
          ⟨n₁, n₂, e₁, e₂, h₁, h₂, hne, hsp⟩
        · rw [hsp]
          exact ⟨hnd, hnn, rfl, fun hno _ => absurd rfl (hno x y)⟩
        · rw [hsp]
          exact ⟨mergeState_nodup st n₁ n₂ e₁ e₂ hnd,
            mergeState_nonneg st n₁ n₂ e₁ e₂ h₁ h₂ hnn,
            mergeState_sumF NEntity.txCount st n₁ n₂ e₁ e₂ hnd h₁ h₂
              hne rfl,
            fun hno _ => absurd rfl (hno x y)⟩
    obtain ⟨h1, h2, h3, h4⟩ := hstep
    obtain ⟨g1, g2, g3, g4⟩ := ih (applyNOp st op) h1 h2
    rw [runOps_cons]
    refine ⟨g1, g2, ?_, ?_⟩
    · rw [g3, h3, regsDone_cons]
      omega
    · intro hnm k
      have hsplit : (∀ x y, op ≠ .mrg x y) ∧ noMergeOps ops = true := by
        simp only [noMergeOps, List.all_cons, Bool.and_eq_true] at hnm
        refine ⟨?_, hnm.2⟩
        intro x y heq
        subst heq
        have hfalse : false = true := hnm.1
        exact Bool.noConfusion hfalse
      rw [g4 hsplit.2 k, h4 hsplit.1 k, regsForKey_cons]
      omega

/-- Claim C5 (amended): in any state reachable by `extract_entity`,
`_register_entity` and `merge_entities` calls, every entity's
`total_credit` and `total_debit` are nonnegative, and the SUM of
`transaction_count` over all entities equals the number of
`_register_entity` invocations performed; the per-key equality
`transaction_count = registrations of that key` holds whenever no merge
occurred (a merge moves the merged key's registrations onto the surviving
key — see the counterexample theorem). -/
theorem entity_table_invariants (ops : List NOp) :
    nonnegState (runOps [] ops) ∧
    sumTx (runOps [] ops) = regsDone [] ops ∧
    (noMergeOps ops = true → ∀ k,
      txCountFor (runOps [] ops) k = regsForKey [] ops k) := by
  obtain ⟨-, h2, h3, h4⟩ := runOps_invariant ops []
    (by simp [nodupKeys, keysOf]) (by intro p hp; simp at hp)
  refine ⟨h2, ?_, fun h k => ?_⟩
  · rw [h3]
    simp [sumTx, sumF]
  · rw [h4 h k]
    simp [txCountFor, lookupE]

/-- Witness for the amended claim C5 at a concrete merge-free sequence. -/
theorem entity_table_invariants_witness :
    noMergeOps [NOp.reg "A" "A" "General" 5 true] = true ∧
    txCountFor (runOps [] [NOp.reg "A" "A" "General" 5 true]) "A" =
      regsForKey [] [NOp.reg "A" "A" "General" 5 true] "A" :=
  ⟨by decide,
    (entity_table_invariants [NOp.reg "A" "A" "General" 5 true]).2.2
      (by decide) "A"⟩

set_option maxRecDepth 1000000 in
/-- Counterexample to claim C5 as stated: after registering `"A"` once,
registering `"B"` once and merging `"B"` into `"A"`, the entity `"A"` has
`transaction_count = 2` although only one registration call was ever made
for the key `"A"`. -/
theorem entity_count_merge_counterexample :
    txCountFor (runOps [] [NOp.reg "A" "A" "General" 5 true,
      NOp.reg "B" "B" "General" 7 false, NOp.mrg "A" "B"]) "A" = 2 ∧
    regsForKey [] [NOp.reg "A" "A" "General" 5 true,
      NOp.reg "B" "B" "General" 7 false, NOp.mrg "A" "B"] "A" = 1 ∧
    (2 : ℕ) ≠ 1 := by
  refine ⟨by decide, by decide, by decide⟩

/-- Claim C9 (amended): when `a` and `b` are two distinct registered keys
that are fixed points of `_normalize_name` (keys produced by the
normalizer need not be — see the counterexample), `merge_entities(a, b)`
returns `True`, removes exactly the key `b`, and preserves the sums of
`transaction_count`, `total_credit` and `total_debit` over the table. -/
theorem merge_entities_removes_second_key (st : NState) (a b : String)
    (ea eb : NEntity) (hnd : nodupKeys st) (hna : normalizeName a = a)
    (hnb : normalizeName b = b) (hab : a ≠ b)
    (hea : lookupE st a = some ea) (heb : lookupE st b = some eb) :
    (mergeEntities st a b).1 = true ∧
    keysOf (mergeEntities st a b).2 =
      (keysOf st).filter (fun k => k != b) ∧
    sumTx (mergeEntities st a b).2 = sumTx st ∧
    sumCredit (mergeEntities st a b).2 = sumCredit st ∧
    sumDebit (mergeEntities st a b).2 = sumDebit st := by
  have hres : mergeEntities st a b =
      (true, updateKey (removeKey st b) a (mergedEntity ea eb)) := by
    rw [mergeEntities, hna, hnb, hea, heb]
    simp only []
    rw [if_neg hab]
  rw [hres]
  exact ⟨rfl, mergeState_keys st a b ea eb,
    mergeState_sumF NEntity.txCount st a b ea eb hnd hea heb hab rfl,
    mergeState_sumF NEntity.totalCredit st a b ea eb hnd hea heb hab rfl,
    mergeState_sumF NEntity.totalDebit st a b ea eb hnd hea heb hab rfl⟩

set_option maxRecDepth 1000000 in
/-- Witness for the amended claim C9 at a concrete table. -/
theorem merge_entities_removes_second_key_witness :
    (mergeEntities [("ALPHA", freshEntity "ALPHA" "General"),
        ("BRAVO", freshEntity "BRAVO" "General")] "ALPHA" "BRAVO").1 =
      true ∧
    keysOf (mergeEntities [("ALPHA", freshEntity "ALPHA" "General"),
        ("BRAVO", freshEntity "BRAVO" "General")] "ALPHA" "BRAVO").2 =
      (keysOf [("ALPHA", freshEntity "ALPHA" "General"),
        ("BRAVO", freshEntity "BRAVO" "General")]).filter
          (fun k => k != "BRAVO") := by
  have h := merge_entities_removes_second_key
    [("ALPHA", freshEntity "ALPHA" "General"),
      ("BRAVO", freshEntity "BRAVO" "General")] "ALPHA" "BRAVO"
    (freshEntity "ALPHA" "General") (freshEntity "BRAVO" "General")
    (by show (keysOf [("ALPHA", freshEntity "ALPHA" "General"),
        ("BRAVO", freshEntity "BRAVO" "General")]).Nodup; decide)
    (by decide) (by decide) (by decide) rfl rfl
  exact ⟨h.1, h.2.1⟩

set_option maxRecDepth 1000000 in
/-- Counterexample to claim C9 as stated: the table can hold keys that are
not fixed points of `_normalize_name` — `extract_entity` on
`"RECEIVED FROM TO FROM JOHN"` registers the key `"FROM JOHN"`, whose
normalization is `"JOHN"`.  Merging such a key fails: `merge_entities`
returns `False` and removes nothing, although both arguments are distinct
registered keys. -/
theorem merge_entities_unnormalized_counterexample :
    (extractEntity [] "RECEIVED FROM TO FROM JOHN" 100 true).1 =
      some "FROM JOHN" ∧
    (mergeEntities [("FROM JOHN", freshEntity "X" "General"),
        ("BOB", freshEntity "Y" "General")] "FROM JOHN" "BOB").1 = false ∧
    keysOf (mergeEntities [("FROM JOHN", freshEntity "X" "General"),
        ("BOB", freshEntity "Y" "General")] "FROM JOHN" "BOB").2 =
      ["FROM JOHN", "BOB"] := by
  refine ⟨by decide, by decide, by decide⟩

/-- Claim C4: with exactly one credit of amount 500 for party `A` on day
`n` and one debit of amount 500 for party `B` (case-insensitively
distinct from `A`) on day `n + 1`, neither flagged as transfer,
`build_chains()` produces exactly one chain, with flow path `A -> B`,
total amount 500, and confidence exactly `0.85 = 0.5 + 0.3 + 0.05`. -/
theorem fund_flow_single_pair_chain (A B dc dd : String) (n : ℤ)
    (hA : A ≠ "") (hB : B ≠ "") (hAB : pyUpperS A ≠ pyUpperS B)
    (hdc : parseDateF dc = some n) (hdd : parseDateF dd = some (n + 1)) :
    buildChains
      [⟨0, dc, some A, 500, 500, 0, false, none⟩,
       ⟨1, dd, some B, 500, 0, 500, false, none⟩] =
    [{ chainId := 0, flowPath := A ++ " -> " ++ B, totalAmount := 500,
       confidence := 17/20, chainDepth := 2, crossPdfLinks := 0 }] := by
  have he : n + 1 - n = 1 := by ring
  have h1 : isDateProximate 1 dd dc = true := by
    simp only [isDateProximate]
    rw [hdd, hdc]
    simp only []
    rw [he]
    decide
  have h0 : isDateProximate 0 dd dc = false := by
    simp only [isDateProximate]
    rw [hdd, hdc]
    simp only []
    rw [he]
    decide
  have hr : pyRoundInt (500 : ℚ) = 500 := by norm_num [pyRoundInt]
  have hbne : (pyUpperS A != pyUpperS B) = true := bne_iff_ne.mpr hAB
  have hfmc : findMatchingCredits ⟨1, dd, some B, 500, 0, 500, false, none⟩
      [⟨0, dc, some A, 500, 500, 0, false, none⟩] [] =
      [⟨0, dc, some A, 500, 500, 0, false, none⟩] := by
    norm_num [findMatchingCredits, amountKeys, hr, h1, hbne, partyOr,
      hA, hB, List.filter_cons, List.filter_nil, List.foldl_cons,
      List.foldl_nil]
  have hconf : calcConfidence ⟨1, dd, some B, 500, 0, 500, false, none⟩
      ⟨0, dc, some A, 500, 500, 0, false, none⟩ = 17/20 := by
    norm_num [calcConfidence, h0, h1, pyMinQ, pyMaxQ]
  have hchain : mkChain 0 ⟨0, dc, some A, 500, 500, 0, false, none⟩
      ⟨1, dd, some B, 500, 0, 500, false, none⟩ 500 =
      { chainId := 0, flowPath := A ++ " -> " ++ B, totalAmount := 500,
        confidence := 17/20, chainDepth := 2, crossPdfLinks := 0 } := by
    simp [mkChain, partyOr, hA, hB, strTruthy, hconf]
  have hp1 : pass1 [⟨1, dd, some B, 500, 0, 500, false, none⟩]
      [⟨0, dc, some A, 500, 500, 0, false, none⟩] [] 0 =
      ([(0, 1)],
        [mkChain 0 ⟨0, dc, some A, 500, 500, 0, false, none⟩
          ⟨1, dd, some B, 500, 0, 500, false, none⟩ 500], 1) := by
    norm_num [pass1, hfmc, List.foldl_cons, List.foldl_nil]
  have hfmd : findMatchingDebits ⟨0, dc, some A, 500, 500, 0, false, none⟩
      [⟨1, dd, some B, 500, 0, 500, false, none⟩] [(0, 1)] = [] := by
    norm_num [findMatchingDebits, amountKeys, hr, List.filter_cons,
      List.filter_nil, List.foldl_cons, List.foldl_nil, List.contains,
      List.elem]
  have hp2 : pass2 [⟨0, dc, some A, 500, 500, 0, false, none⟩]
      [⟨1, dd, some B, 500, 0, 500, false, none⟩] [(0, 1)] 1 =
      ([(0, 1)], [], 1) := by
    simp [pass2, hfmd, List.foldl_nil]
  norm_num [buildChains, List.filter_cons, List.filter_nil, hp1, hp2,
    hchain]

/-- Witness for claim C4 at concrete parties and dates. -/
theorem fund_flow_single_pair_chain_witness :
    parseDateF "01/01/2024" = some 738886 ∧
    parseDateF "02/01/2024" = some (738886 + 1) ∧
    buildChains
      [⟨0, "01/01/2024", some "ALICE", 500, 500, 0, false, none⟩,
       ⟨1, "02/01/2024", some "BOB", 500, 0, 500, false, none⟩] =
    [{ chainId := 0, flowPath := "ALICE" ++ " -> " ++ "BOB",
       totalAmount := 500, confidence := 17/20, chainDepth := 2,
       crossPdfLinks := 0 }] :=
  ⟨by decide, by decide,
    fund_flow_single_pair_chain "ALICE" "BOB" "01/01/2024" "02/01/2024"
      738886 (by decide) (by decide) (by decide) (by decide) (by decide)⟩

set_option maxHeartbeats 1000000 in
/-- Claim C6: a row with `credit = debit = 0` whose positive balance
exceeds the previous known balance by 750 is recovered by the
balance-continuity pass with `credit = 750` and `debit = 0`. -/
theorem pdf_balance_recovery (b : ℚ) (hb : 0 < b) :
    validateAndClean
      [⟨"01/01/2024", "OPENING BALANCE", 100, 0, b⟩,
       ⟨"02/01/2024", "SHOP PURCHASE", 0, 0, b + 750⟩] =
    [⟨"01/01/2024", "OPENING BALANCE", 100, 0, b⟩,
     ⟨"02/01/2024", "SHOP PURCHASE", 750, 0, b + 750⟩] := by
  have hb750 : (0 : ℚ) < b + 750 := by linarith
  have h750 : b + 750 - b = (750 : ℚ) := by ring
  have habs : |(750 : ℚ)| = 750 := by norm_num
  have hs1 : ("01/01/2024" : String) ≠ "" := by decide
  have hs2 : ("OPENING BALANCE" : String) ≠ "" := by decide
  have hs3 : ("02/01/2024" : String) ≠ "" := by decide
  have hs4 : ("SHOP PURCHASE" : String) ≠ "" := by decide
  have hs5 : ("02/01/2024" : String) ≠ "01/01/2024" := by decide
  norm_num [validateAndClean, vLoop, tkey, hb, hb750, h750, habs,
    hs1, hs2, hs3, hs4, hs5]

/-- Witness for claim C6 at a concrete prior balance. -/
theorem pdf_balance_recovery_witness :
    (0 : ℚ) < 1000 ∧
    validateAndClean
      [⟨"01/01/2024", "OPENING BALANCE", 100, 0, 1000⟩,
       ⟨"02/01/2024", "SHOP PURCHASE", 0, 0, 1000 + 750⟩] =
    [⟨"01/01/2024", "OPENING BALANCE", 100, 0, 1000⟩,
     ⟨"02/01/2024", "SHOP PURCHASE", 750, 0, 1000 + 750⟩] :=
  ⟨by norm_num, pdf_balance_recovery 1000 (by norm_num)⟩

/-- Claim C8 (amended): `/api/analyze` returns 400 with the
extension-listing message for every filename not ending
(case-insensitively) in `.xls`/`.xlsx`/`.pdf` — including zero-byte
ones, since this gate runs first; returns 400 `"Empty file"` for every
zero-byte upload whose filename has a supported extension; and returns
some 400 for every accepted upload whose extraction yields zero
transactions. -/
theorem analyze_validation (filename : String) (nbytes : ℕ)
    (ext : ExtractOutcome) :
    (endsWithAny (pyLowerS filename) SUPPORTED_EXTENSIONS = false →
      analyzeValidate filename nbytes ext =
        some (400, "Only .xls, .xlsx, .pdf files are supported")) ∧
    (endsWithAny (pyLowerS filename) SUPPORTED_EXTENSIONS = true →
      nbytes = 0 →
      analyzeValidate filename nbytes ext = some (400, "Empty file")) ∧
    (endsWithAny (pyLowerS filename) SUPPORTED_EXTENSIONS = true →
      nbytes ≠ 0 → ext = .ok 0 →
      ∃ d, analyzeValidate filename nbytes ext = some (400, d)) := by
  refine ⟨fun h => ?_, fun h h0 => ?_, fun h hn he => ?_⟩
  · simp only [analyzeValidate, h, Bool.not_false, if_true]
  · simp only [analyzeValidate, h, Bool.not_true, Bool.false_eq_true,
      if_false, h0]
    simp
  · subst he
    simp only [analyzeValidate, h, Bool.not_true, Bool.false_eq_true,
      if_false, if_neg hn]
    by_cases hx : endsWithAny (pyLowerS filename) [".xls", ".xlsx"] = true
    · rw [if_pos hx]
      exact ⟨"No transactions found. Please ensure the file contains valid bank statement data.",
        by simp⟩
    · rw [if_neg hx]
      exact ⟨"Failed to process PDF file: No transactions found in PDF.",
        by simp⟩

/-- Witness for the amended claim C8: a zero-byte PDF gets
`"Empty file"`, a `.txt` upload gets the extension message. -/
theorem analyze_validation_witness :
    analyzeValidate "scan.PDF" 0 (.ok 3) = some (400, "Empty file") ∧
    analyzeValidate "notes.txt" 5 (.ok 3) =
      some (400, "Only .xls, .xlsx, .pdf files are supported") :=
  ⟨(analyze_validation "scan.PDF" 0 (.ok 3)).2.1 (by decide) rfl,
   (analyze_validation "notes.txt" 5 (.ok 3)).1 (by decide)⟩

/-- Counterexample to claim C8 as stated: a zero-byte upload named
`"a.txt"` is rejected with the extension-listing message, not with
`"Empty file"` — the extension gate precedes the empty-body gate. -/
theorem analyze_empty_file_counterexample :
    analyzeValidate "a.txt" 0 (.ok 0) =
      some (400, "Only .xls, .xlsx, .pdf files are supported") ∧
    ("Only .xls, .xlsx, .pdf files are supported" : String) ≠
      "Empty file" := ⟨by decide, by decide⟩
